import Mathlib

/-!
Verification of the draughts session orchestrator (`src/services/moveService.ts`).

The orchestrator (`executeMove`, `handleGameOver`, `chooseAIMove`,
`convertPosition`, `convertPositionBack`) is embedded shallowly: the
Sequelize-backed stores become an explicit `DB` value threaded through the
call, the external `rapid-draughts` rule engine becomes an abstract `Engine`
record of pure functions, and timestamps become integer milliseconds.
-/

namespace DraughtsApp

/-- `GameStatus` enum from `models/Game` ('ongoing' | 'completed' | 'abandoned'
| 'timed out'). -/
inductive GameStatus
  | ONGOING
  | COMPLETED
  | ABANDONED
  | TIMED_OUT
deriving DecidableEq, Repr

/-- `GameType` enum from `models/Game` ('pvp' | 'pve'). -/
inductive GameType
  | PVP
  | PVE
deriving DecidableEq, Repr

/-- `AIDifficulty` enum from `models/Game` ('absent' | 'easy' | 'hard'). -/
inductive AIDifficulty
  | ABSENT
  | EASY
  | HARD
deriving DecidableEq, Repr

/-- `DraughtsStatus` of the external rapid-draughts engine; the service only
distinguishes the three terminal values from any other ("playing") value. -/
inductive DraughtsStatus
  | LIGHT_WON
  | DARK_WON
  | DRAW
  | PLAYING
deriving DecidableEq, Repr

/-- A piece on a draughts square (`DraughtsSquare1D.piece`): owner and king
flag. -/
structure DPiece where
  lightOwner : Bool
  king : Bool
deriving DecidableEq, Repr

/-- One square of the 1-D draughts board (`DraughtsSquare1D`). -/
structure DSquare where
  dark : Bool
  piece : Option DPiece
deriving DecidableEq, Repr

/-- A move of the external engine (`DraughtsMove1D`).  The service reads and
compares only `origin` and `destination`; capture data stays inside the
engine's `applyMove`. -/
structure DMove where
  origin : Int
  destination : Int
deriving DecidableEq, Repr

/-- An algebraic board position, the parsed form of the two-character strings
("A7") handled by the service: the file letter and the rank digit
(`parseInt(position[1])`). -/
structure APos where
  fileChar : Char
  rankDigit : Int
deriving DecidableEq, Repr

/-- `convertPosition` (moveService.ts:66-70): algebraic position to linear
index.  `file = charCode - charCode('A')`, `rank = 8 - digit`, result
`rank * 8 + file`. -/
def convertPosition (position : APos) : Int :=
  let file : Int := (position.fileChar.toNat : Int) - 65
  let rank : Int := 8 - position.rankDigit
  rank * 8 + file

/-- `convertPositionBack` (moveService.ts:79-83): linear index to algebraic
position.  `file = 'A' + index % 8`, `rank = 8 - floor(index / 8)`. -/
def convertPositionBack (index : Int) : APos :=
  let file : Char := Char.ofNat (65 + (index % 8)).toNat
  let rank : Int := 8 - index / 8
  ⟨file, rank⟩

/-- The eight file letters accepted by the external API (A-H). -/
def boardFiles : List Char := ['A', 'B', 'C', 'D', 'E', 'F', 'G', 'H']

/-- The eight rank digits accepted by the external API (1-8). -/
def boardRanks : List Int := [1, 2, 3, 4, 5, 6, 7, 8]

/-- A `Player` row: the fields the move service touches.  Token balance and
score are numeric (floating point in the source; embedded as rationals — the
claims only concern how often and by how much they change). -/
structure Player where
  tokens : ℚ
  score : ℚ
deriving DecidableEq, Repr

/-- The JavaScript value stored in `Game.board.board`: either an already flat
1-D array of squares (what the service writes back), or a nested
array-of-rows (the migration's initial `initialBoard.json` shape).
`Array.prototype.flat()` flattens one level; indexing a nested value with a
linear index hits a row object, whose `.piece` is undefined. -/
inductive SavedBoard
  | flat (squares : List DSquare)
  | nested (rows : List (List DSquare))
deriving DecidableEq, Repr

/-- `savedBoard.flat()` (moveService.ts:145). -/
def SavedBoard.flatten : SavedBoard → List DSquare
  | .flat squares => squares
  | .nested rows => rows.flatten

/-- `savedBoard[i]?.piece?.king` on a flat array, with out-of-range and
negative indices giving `undefined` hence a falsy king flag. -/
def kingAtFlat (squares : List DSquare) (i : Int) : Bool :=
  match (if 0 ≤ i then squares.get? i.toNat else none) with
  | some sq =>
    match sq.piece with
    | some p => p.king
    | none => false
  | none => false

/-- `savedBoard[i]?.piece?.king` (moveService.ts:235,299): on a nested board a
linear index selects a row, which has no `piece` field, so the flag is falsy. -/
def SavedBoard.kingAt (b : SavedBoard) (i : Int) : Bool :=
  match b with
  | .flat squares => kingAtFlat squares i
  | .nested _ => false

/-- The persisted `Game.board` column as seen by the load sequence
(moveService.ts:129-143): parsing can throw, the parsed value can lack an
array `board` field, or it yields a stored board. -/
inductive StoredBoard
  | unparseable
  | notArray
  | stored (b : SavedBoard)
deriving DecidableEq, Repr

/-- A `Game` row: the fields the move service reads and writes. -/
structure Game where
  player_id : Int
  opponent_id : Option Int
  winner_id : Option Int
  status : GameStatus
  type : GameType
  ai_difficulty : AIDifficulty
  board : StoredBoard
  total_moves : Nat
  ended_at : Option Int
deriving DecidableEq, Repr

/-- A `Move` row (`Move.create`, moveService.ts:230-239): `user_id = none`
marks the AI sentinel; `piece_king` embeds the 'king' / 'single'
`piece_type` string; `createdAt` is the commit timestamp in milliseconds. -/
structure MoveRec where
  move_number : Nat
  board_after : List DSquare
  from_position : APos
  to_position : APos
  piece_king : Bool
  game_id : Nat
  user_id : Option Int
  createdAt : Int
deriving DecidableEq, Repr

/-- Association-list lookup by primary key (`findByPk`). -/
def lookupList {α β : Type} [DecidableEq α] : List (α × β) → α → Option β
  | [], _ => none
  | (k, v) :: rest, key => if k = key then some v else lookupList rest key

/-- Association-list update by primary key (`save()` on a loaded row). -/
def updateList {α β : Type} [DecidableEq α] : List (α × β) → α → β → List (α × β)
  | [], _, _ => []
  | (k, v) :: rest, key, newv =>
    if k = key then (key, newv) :: updateList rest key newv
    else (k, v) :: updateList rest key newv

/-- The relational state the service reads and writes: `Player` and `Game`
rows keyed by primary key, and the append-only `Move` table held newest
first (so its head is the `ORDER BY createdAt DESC` top row). -/
structure DB where
  players : List (Int × Player)
  games : List (Nat × Game)
  moves : List MoveRec
deriving DecidableEq, Repr

/-- `Player.findByPk`. -/
def findPlayer (db : DB) (id : Int) : Option Player :=
  lookupList db.players id

/-- `player.save()`. -/
def updatePlayer (db : DB) (id : Int) (p : Player) : DB :=
  { db with players := updateList db.players id p }

/-- `Game.findByPk`. -/
def findGame (db : DB) (id : Nat) : Option Game :=
  lookupList db.games id

/-- `game.save()`. -/
def updateGame (db : DB) (id : Nat) (g : Game) : DB :=
  { db with games := updateList db.games id g }

/-- `Move.create`: a new row, which is the most recent one. -/
def addMove (db : DB) (m : MoveRec) : DB :=
  { db with moves := m :: db.moves }

/-- `Move.findOne({where: {game_id, user_id}, order: createdAt DESC})`
(moveService.ts:171-177 and 256-262). -/
def lastMoveOf (db : DB) (gameId : Nat) (userId : Option Int) : Option MoveRec :=
  (db.moves.filter (fun m => m.game_id == gameId && m.user_id == userId)).head?

/-- All `Move` rows of one game, newest first. -/
def movesOfGame (db : DB) (gameId : Nat) : List MoveRec :=
  db.moves.filter (fun m => m.game_id == gameId)

/-- The external rapid-draughts engine at its interface boundary: its
visible 1-D board plus whose turn it is, with the legal-move list, move
application, and status as opaque pure functions. -/
structure DraughtsState where
  board : List DSquare
  lightToMove : Bool
deriving DecidableEq, Repr

/-- The rapid-draughts operations the service calls (`Draughts.setup()`,
`draughts.moves`, `draughts.move(m)`, `draughts.status`). -/
structure Engine where
  setup : DraughtsState
  movesOf : DraughtsState → List DMove
  applyMove : DraughtsState → DMove → DraughtsState
  statusOf : DraughtsState → DraughtsStatus

/-- The board-loading sequence (moveService.ts:148-151): `Draughts.setup()`
followed by `flattenedBoard.forEach((square, index) => board[index] = square)`
— saved squares overwrite the setup prefix; any setup suffix beyond the
saved data survives, and the side to move is whatever `setup()` chose (it is
never read from the database). -/
def loadDraughts (eng : Engine) (flattened : List DSquare) : DraughtsState :=
  { board := flattened ++ eng.setup.board.drop flattened.length,
    lightToMove := eng.setup.lightToMove }

/-- `[LIGHT_WON, DARK_WON, DRAW].includes(draughts.status)`
(moveService.ts:242,306). -/
def terminalCheck (st : DraughtsStatus) : Bool :=
  st == .LIGHT_WON || st == .DARK_WON || st == .DRAW

/-- `TIMEOUT_MINUTES = 1` (moveService.ts:13). -/
def TIMEOUT_MINUTES : Int := 1

/-- `MOVE_COST = 0.02` (moveService.ts:14), embedded exactly as 1/50. -/
def MOVE_COST : ℚ := 1 / 50

/-- The millisecond form of the timeout test (moveService.ts:182-184): the
source computes `(now - last) / 60000 > TIMEOUT_MINUTES` in floating point;
over the relevant magnitudes that is exactly `now - last > 60000 *
TIMEOUT_MINUTES`. -/
def timeoutExceeded (now lastTime : Int) : Bool :=
  60000 * TIMEOUT_MINUTES < now - lastTime

/-- Modelled from the spec: the man/king weights of the Hard selector's leaf
evaluation ("weighted piece count (man vs. king weight is a named constant)").
The search implementation lives in the external rapid-draughts library, not
in this repository. -/
def MAN_WEIGHT : Int := 1

/-- Modelled from the spec: the king weight of the leaf evaluation. -/
def KING_WEIGHT : Int := 3

/-- Modelled from the spec: the weighted piece-count leaf evaluation of the
Hard selector, positive for the maximizing (light) side. -/
def evalBoard (d : DraughtsState) : Int :=
  (d.board.map (fun sq =>
    match sq.piece with
    | none => 0
    | some p =>
      (if p.king then KING_WEIGHT else MAN_WEIGHT) * (if p.lightOwner then 1 else -1))).sum

/-- Modelled from the spec: the fixed-depth game-tree value of the Hard
selector ("alpha-beta minimax, fixed search depth of 5 plies, leaf
evaluation = weighted piece count").  Alpha-beta pruning is a
value-preserving optimization of this minimax value, so the selector is
embedded at the value level. -/
def minimaxVal (eng : Engine) : Nat → DraughtsState → Bool → Int
  | 0, d, _ => evalBoard d
  | fuel + 1, d, maximizing =>
    let ms := eng.movesOf d
    if ms.isEmpty then evalBoard d
    else
      let vals := ms.map (fun m => minimaxVal eng fuel (eng.applyMove d m) (!maximizing))
      if maximizing then vals.foldl max (-1000000) else vals.foldl min 1000000

/-- Modelled from the spec: the Hard computer
(`ComputerFactory.alphaBeta({maxDepth: 5})` of the external library): among
the current legal moves, pick the one maximizing the depth-5 search value
(root choice plus four further plies). -/
def alphaBetaComputer (eng : Engine) (d : DraughtsState) : Option DMove :=
  match eng.movesOf d with
  | [] => none
  | m0 :: rest =>
    let value := fun m => minimaxVal eng 4 (eng.applyMove d m) false
    some (rest.foldl (fun best m => if value best < value m then m else best) m0)

/-- Modelled from the spec: the Easy computer (`ComputerFactory.random()` of
the external library): "uniform-random choice among legalMoves;
nondeterministic by design — tests must inject a seedable random source".
The injected random source is the `rnd` seed: the choice is the legal move
at index `rnd mod length`. -/
def randomComputer (eng : Engine) (rnd : Nat) (d : DraughtsState) : Option DMove :=
  let ms := eng.movesOf d
  ms.get? (rnd % ms.length)

/-- `chooseAIMove` (moveService.ts:39-56): empty legal-move list gives null;
EASY delegates to the random computer, HARD to the alpha-beta computer, and
the `default` branch (difficulty ABSENT) returns null. -/
def chooseAIMove (eng : Engine) (rnd : Nat) (draughts : DraughtsState)
    (difficulty : AIDifficulty) : Option DMove :=
  let validMoves := eng.movesOf draughts
  if validMoves.length = 0 then none
  else
    match difficulty with
    | .EASY => randomComputer eng rnd draughts
    | .HARD => alphaBetaComputer eng draughts
    | .ABSENT => none

/-- The value returned by `handleGameOver`: the result message, the final
board, and (for the embedding) the database after the finalizing writes. -/
structure GOResult where
  message : String
  board : List DSquare
  db : DB
deriving Repr

/-- `handleGameOver` (moveService.ts:346-385): resolve the winner from the
engine status (light: the session's player; dark: the AI sentinel `-1` in
PvE, otherwise the opponent; anything else: draw, no winner), mark the game
`COMPLETED` with `ended_at` and `winner_id`, and add one score point to the
winner's `Player` row when one exists. -/
def handleGameOver (eng : Engine) (draughts : DraughtsState) (gameId : Nat)
    (game : Game) (db : DB) (now : Int) : GOResult :=
  let st := eng.statusOf draughts
  let winnerId : Option Int :=
    if st = .LIGHT_WON then some game.player_id
    else if st = .DARK_WON then
      (if game.type = .PVE then some (-1) else game.opponent_id)
    else none
  let result : String :=
    if st = .LIGHT_WON then "You have won!"
    else if st = .DARK_WON then
      (if game.type = .PVE then "The AI has won!" else "Your opponent has won!")
    else "The game ended in a draw!"
  let game1 : Game :=
    { game with status := .COMPLETED, ended_at := some now, winner_id := winnerId }
  let db1 := updateGame db gameId game1
  let db2 :=
    match winnerId with
    | some w =>
      match findPlayer db1 w with
      | some p => updatePlayer db1 w { p with score := p.score + 1 }
      | none => db1
    | none => db1
  ⟨result, draughts.board, db2⟩

/-- The typed error kinds of `MoveFactory` that `executeMove` can raise. -/
inductive moveErrorType
  | GAME_NOT_FOUND
  | FAILED_PARSING
  | NOT_VALID_ARRAY
  | NOT_VALID_MOVE
deriving DecidableEq, Repr

/-- The typed error kind of `GameFactory` that `executeMove` can raise. -/
inductive gameErrorType
  | GAME_NOT_IN_PROGRESS
deriving DecidableEq, Repr

/-- The typed error kind of `AuthFactory` that `executeMove` can raise. -/
inductive authErrorType
  | UNAUTHORIZED
deriving DecidableEq, Repr

/-- What `executeMove` can throw: a plain `new Error(msg)` outside the typed
factory taxonomy, or one of the typed factory errors. -/
inductive Thrown
  | genericError (msg : String)
  | moveError (e : moveErrorType)
  | gameError (e : gameErrorType)
  | authError (e : authErrorType)
deriving DecidableEq, Repr

/-- The observable outcome of one `executeMove` call: a thrown error, the
timeout return (moveService.ts:206-210), a game-over return
(moveService.ts:244-249,308-313), or a successful move return, with
`aiReplied` separating the combined player+AI PvE return from the
player-only return. -/
inductive Outcome
  | thrown (t : Thrown)
  | timeoutEnded (gameId : Nat) (status : GameStatus)
  | gameEnded (gameId : Nat) (message : String)
  | moveExecuted (gameId : Nat) (aiReplied : Bool)
deriving DecidableEq, Repr

/-- The token debit `player.tokens -= MOVE_COST` (moveService.ts:125). -/
def debitedPlayer (p : Player) : Player :=
  { p with tokens := p.tokens - MOVE_COST }

/-- The legal-move resolution (moveService.ts:160-168): the stored board is
flattened and loaded, the submitted positions converted, and the first legal
move with matching origin and destination selected. -/
def findMove (eng : Engine) (savedBoard : SavedBoard) (fm toPos : APos) : Option DMove :=
  let draughts := loadDraughts eng savedBoard.flatten
  let origin := convertPosition fm
  let destination := convertPosition toPos
  (eng.movesOf draughts).find? (fun m => m.origin == origin && m.destination == destination)

/-- The AI reply selection of the PvE continuation (moveService.ts:256-278):
the chosen move of `chooseAIMove`, except that when it coincides (as an
origin/destination pair, via `convertPosition` on the stored strings) with
the AI's own most recent recorded move, the legal moves are filtered to
exclude that pair and the first remaining one is substituted (null when none
remains).  `dbAfterPlayer` is the state after the player's record was added,
which is where the source queries the latest AI move.  (The source guard
`lastAIMove.from_position && lastAIMove.to_position` is a truthiness test on
two always-present strings and cannot fail in the embedding.) -/
def aiReply (eng : Engine) (rnd : Nat) (dbAfterPlayer : DB) (gameId : Nat)
    (draughts1 : DraughtsState) (difficulty : AIDifficulty) : Option DMove :=
  let lastAIMove := lastMoveOf dbAfterPlayer gameId none
  let aiChosen := chooseAIMove eng rnd draughts1 difficulty
  match lastAIMove, aiChosen with
  | some lam, some am =>
    if am.origin == convertPosition lam.from_position &&
        am.destination == convertPosition lam.to_position then
      let alternatives := (eng.movesOf draughts1).filter
        (fun m => !(m.origin == am.origin && m.destination == am.destination))
      alternatives.head?
    else some am
  | none, am => am
  | some _, none => none

/-- The committing tail of `executeMove` (moveService.ts:218-333), reached
once every guard has passed: apply the player's move, persist board and
counter, append the player's `MoveRec`, finalize if terminal, and otherwise
run the PvE continuation (AI reply, second persist, second debit through the
same in-memory player object, AI `MoveRec`, second terminal check).  `db` is
the state after the unconditional debit and `player` the debited in-memory
row. -/
def commitPhase (eng : Engine) (rnd : Nat) (now : Int) (db : DB) (gameId : Nat)
    (fm toPos : APos) (playerId : Int) (player : Player) (game : Game)
    (savedBoard : SavedBoard) (moveToMake : DMove) : Outcome × DB :=
  let draughts := loadDraughts eng savedBoard.flatten
  let origin := convertPosition fm
  -- draughts.move(moveToMake); persist board, total_moves, MoveRec
  let draughts1 := eng.applyMove draughts moveToMake
  let game1 : Game :=
    { game with board := .stored (.flat draughts1.board),
                total_moves := game.total_moves + 1 }
  let db1 := updateGame db gameId game1
  let moveNumber := game1.total_moves
  let db2 := addMove db1
    { move_number := moveNumber, board_after := draughts1.board,
      from_position := fm, to_position := toPos,
      piece_king := savedBoard.kingAt origin,
      game_id := gameId, user_id := some playerId, createdAt := now }
  if terminalCheck (eng.statusOf draughts1) then
    let go := handleGameOver eng draughts1 gameId game1 db2 now
    (.gameEnded gameId go.message, go.db)
  else if game1.type = .PVE then
    match aiReply eng rnd db2 gameId draughts1 game1.ai_difficulty with
    | some am =>
      let draughts2 := eng.applyMove draughts1 am
      let game2 : Game :=
        { game1 with board := .stored (.flat draughts2.board),
                     total_moves := game1.total_moves + 1 }
      let db3 := updateGame db2 gameId game2
      -- second debit through the same in-memory player object
      let player2 := { player with tokens := player.tokens - MOVE_COST }
      let db4 := updatePlayer db3 playerId player2
      let db5 := addMove db4
        { move_number := moveNumber + 1, board_after := draughts2.board,
          from_position := convertPositionBack am.origin,
          to_position := convertPositionBack am.destination,
          piece_king := savedBoard.kingAt am.origin,
          game_id := gameId, user_id := none, createdAt := now }
      if terminalCheck (eng.statusOf draughts2) then
        let go := handleGameOver eng draughts2 gameId game2 db5 now
        (.gameEnded gameId go.message, go.db)
      else (.moveExecuted gameId true, db5)
    | none => (.moveExecuted gameId false, db2)
  else (.moveExecuted gameId false, db2)

/-- The timeout branch of `executeMove` (moveService.ts:184-211): force the
game to `TIMED_OUT` with `ended_at` and the opposing participant (or the AI
sentinel `-1`) as winner, re-fetch the player row and subtract the
0.5-point penalty, and return the timeout result. -/
def timeoutPhase (now : Int) (db : DB) (gameId : Nat) (playerId : Int)
    (game : Game) : Outcome × DB :=
  let game1 : Game :=
    { game with status := .TIMED_OUT, ended_at := some now,
                winner_id :=
                  if game.opponent_id = none then some (-1)
                  else if game.player_id = playerId then game.opponent_id
                  else some game.player_id }
  let db1 := updateGame db gameId game1
  let db2 :=
    match findPlayer db1 playerId with
    | some p => updatePlayer db1 playerId { p with score := p.score - 1 / 2 }
    | none => db1
  (.timeoutEnded gameId game1.status, db2)

/-- `executeMove` (moveService.ts:101-334), embedded with explicit state:
`eng` is the external rapid-draughts engine, `rnd` the injected random seed
of the Easy computer, `now` the current time in milliseconds, and `db` the
relational state.  The body follows the source order: player lookup, game
lookup, status and authorization guards, unconditional token debit, board
parse, legal-move resolution (`findMove`), timeout check (`timeoutPhase`),
duplicate-move guard, and the committing tail (`commitPhase`). -/
def executeMove (eng : Engine) (rnd : Nat) (now : Int) (db : DB) (gameId : Nat)
    (fm toPos : APos) (playerId : Int) : Outcome × DB :=
  match findPlayer db playerId with
  | none => (.thrown (.genericError "Player not found."), db)
  | some player0 =>
    match findGame db gameId with
    | none => (.thrown (.moveError .GAME_NOT_FOUND), db)
    | some game =>
      if game.status ≠ .ONGOING then
        (.thrown (.gameError .GAME_NOT_IN_PROGRESS), db)
      else if game.player_id ≠ playerId ∧ game.opponent_id ≠ some playerId then
        (.thrown (.authError .UNAUTHORIZED), db)
      else
        let player := debitedPlayer player0
        let dbD := updatePlayer db playerId player
        match game.board with
        | .unparseable => (.thrown (.moveError .FAILED_PARSING), dbD)
        | .notArray => (.thrown (.moveError .NOT_VALID_ARRAY), dbD)
        | .stored savedBoard =>
          match findMove eng savedBoard fm toPos with
          | none => (.thrown (.moveError .NOT_VALID_MOVE), dbD)
          | some moveToMake =>
            match lastMoveOf dbD gameId (some playerId) with
            | none =>
              commitPhase eng rnd now dbD gameId fm toPos playerId player game
                savedBoard moveToMake
            | some lm =>
              if timeoutExceeded now lm.createdAt then
                timeoutPhase now dbD gameId playerId game
              else if lm.from_position == fm && lm.to_position == toPos then
                (.thrown (.moveError .NOT_VALID_MOVE), dbD)
              else
                commitPhase eng rnd now dbD gameId fm toPos playerId player game
                  savedBoard moveToMake

/-- The list `[n, n-1, ..., 1]`: the move numbers of a session holding `n`
committed records, newest first. -/
def countdown : Nat → List Nat
  | 0 => []
  | n + 1 => (n + 1) :: countdown n

/-- The `move_number` column of one session, newest first. -/
def seqNumbers (db : DB) (gid : Nat) : List Nat :=
  (movesOfGame db gid).map (fun m => m.move_number)

/-! ## Concrete test fixtures

Small concrete engines, boards and database states used to evaluate the
orchestrator at specific inputs. -/

/-- An empty playable square. -/
def sqEmpty : DSquare := ⟨true, none⟩

/-- A square holding a light man. -/
def sqMan : DSquare := ⟨true, some ⟨true, false⟩⟩

/-- Position A1 (linear index 56). -/
def pA1 : APos := ⟨'A', 1⟩

/-- Position B2 (linear index 49). -/
def pB2 : APos := ⟨'B', 2⟩

/-- Position C3 (linear index 42). -/
def pC3 : APos := ⟨'C', 3⟩

/-- Position D4 (linear index 35). -/
def pD4 : APos := ⟨'D', 4⟩

/-- Position E5 (linear index 28). -/
def pE5 : APos := ⟨'E', 5⟩

/-- The move A1 to B2 in linear form. -/
def mvPlayer : DMove := ⟨56, 49⟩

/-- The move C3 to D4 in linear form. -/
def mvAI : DMove := ⟨42, 35⟩

/-- The move D4 to E5 in linear form. -/
def mvAlt : DMove := ⟨35, 28⟩

/-- A trivial engine with no legal moves anywhere. -/
def engTriv : Engine := ⟨⟨[], true⟩, fun _ => [], fun d _ => d, fun _ => .PLAYING⟩

/-- A non-terminal test engine: the one-square loaded board offers the
player move, the two-square board after it offers the AI move and an
alternative; every applied move appends a square; play never ends. -/
def engPlay : Engine :=
  { setup := ⟨[], true⟩,
    movesOf := fun d => if d.board.length ≤ 1 then [mvPlayer] else [mvAI, mvAlt],
    applyMove := fun d _ => ⟨d.board ++ [sqEmpty], !d.lightToMove⟩,
    statusOf := fun _ => .PLAYING }

/-- A variant of `engPlay` whose post-player-move position offers only the
AI move `mvAI`, with no alternative. -/
def engOneReply : Engine :=
  { setup := ⟨[], true⟩,
    movesOf := fun d => if d.board.length ≤ 1 then [mvPlayer] else [mvAI],
    applyMove := fun d _ => ⟨d.board ++ [sqEmpty], !d.lightToMove⟩,
    statusOf := fun _ => .PLAYING }

/-- A terminal test engine: like `engPlay`, but any position with at least
two squares (reached after one applied move) is a light win. -/
def engLightWins : Engine :=
  { setup := ⟨[], true⟩,
    movesOf := fun d => if d.board.length ≤ 1 then [mvPlayer] else [mvAI, mvAlt],
    applyMove := fun d _ => ⟨d.board ++ [sqEmpty], !d.lightToMove⟩,
    statusOf := fun d => if 2 ≤ d.board.length then .LIGHT_WON else .PLAYING }

/-- The one-square stored board all fixtures start from. -/
def bStart : StoredBoard := .stored (.flat [sqMan])

/-- A player row with ten tokens and five points. -/
def playerRich : Player := ⟨10, 5⟩

/-- A player row with an empty token balance. -/
def playerBroke : Player := ⟨0, 5⟩

/-- An ongoing PvP game between players 1 and 2. -/
def gamePvp : Game :=
  { player_id := 1, opponent_id := some 2, winner_id := none,
    status := .ONGOING, type := .PVP, ai_difficulty := .ABSENT,
    board := bStart, total_moves := 0, ended_at := none }

/-- An ongoing Easy PvE game of player 1. -/
def gamePve : Game :=
  { player_id := 1, opponent_id := none, winner_id := none,
    status := .ONGOING, type := .PVE, ai_difficulty := .EASY,
    board := bStart, total_moves := 2, ended_at := none }

/-- The recorded previous move of player 1 (A1 to B2 at time zero). -/
def recPlayerOld : MoveRec :=
  { move_number := 1, board_after := [sqMan], from_position := pA1,
    to_position := pB2, piece_king := false, game_id := 1, user_id := some 1,
    createdAt := 0 }

/-- The recorded previous AI move (C3 to D4 at time zero). -/
def recAIOld : MoveRec :=
  { move_number := 2, board_after := [sqMan], from_position := pC3,
    to_position := pD4, piece_king := false, game_id := 1, user_id := none,
    createdAt := 0 }

/-- PvP state: player 1, player 2, the game, no history. -/
def dbPvpFresh : DB := ⟨[(1, playerRich), (2, playerRich)], [(1, gamePvp)], []⟩

/-- PvP state with a broke player 1. -/
def dbPvpBroke : DB := ⟨[(1, playerBroke), (2, playerRich)], [(1, gamePvp)], []⟩

/-- PvE state whose history holds an old player move and an old AI move. -/
def dbPveHist : DB :=
  ⟨[(1, playerRich)], [(1, gamePve)], [recAIOld, recPlayerOld]⟩

/-- PvE state with no history. -/
def dbPveFresh : DB :=
  ⟨[(1, playerRich)], [(1, { gamePve with total_moves := 0 })], []⟩

/-- PvE state whose history holds only an old AI move (C3 to D4). -/
def dbPveSub : DB := ⟨[(1, playerRich)], [(1, gamePve)], [recAIOld]⟩

/-- The empty database. -/
def dbEmpty : DB := ⟨[], [], []⟩

/-! ## Theorems -/

/-! ## Store lemmas -/

/-- Updating a present key makes lookup return the new value. -/
theorem lookupList_updateList_self {α β : Type} [DecidableEq α]
    (l : List (α × β)) (k : α) (v w : β) (h : lookupList l k = some w) :
    lookupList (updateList l k v) k = some v := by
  induction l with
  | nil => simp [lookupList] at h
  | cons hd tl ih =>
    obtain ⟨hk, hv⟩ := hd
    by_cases hkey : hk = k
    · simp [lookupList, updateList, hkey]
    · simp [lookupList, updateList, hkey] at h ⊢
      exact ih h

/-- Updating one key leaves lookups of other keys unchanged. -/
theorem lookupList_updateList_ne {α β : Type} [DecidableEq α]
    (l : List (α × β)) (k k2 : α) (v : β) (h : k ≠ k2) :
    lookupList (updateList l k v) k2 = lookupList l k2 := by
  induction l with
  | nil => simp [updateList]
  | cons hd tl ih =>
    obtain ⟨hk, hv⟩ := hd
    by_cases hkey : hk = k
    · subst hkey
      simp [lookupList, updateList, h, ih]
    · simp [lookupList, updateList, hkey, ih]

theorem findPlayer_updatePlayer_self (db : DB) (id : Int) (p q : Player)
    (h : findPlayer db id = some q) :
    findPlayer (updatePlayer db id p) id = some p :=
  lookupList_updateList_self db.players id p q h

theorem findPlayer_updateGame (db : DB) (gid : Nat) (g : Game) (id : Int) :
    findPlayer (updateGame db gid g) id = findPlayer db id := rfl

theorem findPlayer_addMove (db : DB) (m : MoveRec) (id : Int) :
    findPlayer (addMove db m) id = findPlayer db id := rfl

theorem findGame_updatePlayer (db : DB) (id : Int) (p : Player) (gid : Nat) :
    findGame (updatePlayer db id p) gid = findGame db gid := rfl

theorem findGame_addMove (db : DB) (m : MoveRec) (gid : Nat) :
    findGame (addMove db m) gid = findGame db gid := rfl

theorem findGame_updateGame_self (db : DB) (gid : Nat) (g g0 : Game)
    (h : findGame db gid = some g0) :
    findGame (updateGame db gid g) gid = some g :=
  lookupList_updateList_self db.games gid g g0 h

theorem movesOfGame_updatePlayer (db : DB) (id : Int) (p : Player) (gid : Nat) :
    movesOfGame (updatePlayer db id p) gid = movesOfGame db gid := rfl

theorem movesOfGame_updateGame (db : DB) (gid2 : Nat) (g : Game) (gid : Nat) :
    movesOfGame (updateGame db gid2 g) gid = movesOfGame db gid := rfl

theorem movesOfGame_addMove_same (db : DB) (m : MoveRec) (gid : Nat)
    (h : m.game_id = gid) :
    movesOfGame (addMove db m) gid = m :: movesOfGame db gid := by
  simp [movesOfGame, addMove, h]

theorem moves_updatePlayer (db : DB) (id : Int) (p : Player) :
    (updatePlayer db id p).moves = db.moves := rfl

theorem moves_updateGame (db : DB) (gid : Nat) (g : Game) :
    (updateGame db gid g).moves = db.moves := rfl

/-- An appended player record is invisible to the latest-AI-move query. -/
theorem lastMoveOf_addMove_player (db : DB) (m : MoveRec) (gid : Nat)
    (pid : Int) (h : m.user_id = some pid) :
    lastMoveOf (addMove db m) gid none = lastMoveOf db gid none := by
  simp [lastMoveOf, addMove, h]

theorem lastMoveOf_updatePlayer (db : DB) (id : Int) (p : Player) (gid : Nat)
    (uid : Option Int) :
    lastMoveOf (updatePlayer db id p) gid uid = lastMoveOf db gid uid := rfl

/-! ## Path lemmas for `executeMove` -/

/-- A missing player short-circuits the whole call with the untyped error. -/
theorem executeMove_noPlayer (eng : Engine) (rnd : Nat) (now : Int) (db : DB)
    (gameId : Nat) (fm toPos : APos) (playerId : Int)
    (hp : findPlayer db playerId = none) :
    executeMove eng rnd now db gameId fm toPos playerId =
      (.thrown (.genericError "Player not found."), db) := by
  simp [executeMove, hp]

/-- With the player present but the game absent, the call fails GAME_NOT_FOUND. -/
theorem executeMove_noGame (eng : Engine) (rnd : Nat) (now : Int) (db : DB)
    (gameId : Nat) (fm toPos : APos) (playerId : Int) (player0 : Player)
    (hp : findPlayer db playerId = some player0)
    (hg : findGame db gameId = none) :
    executeMove eng rnd now db gameId fm toPos playerId =
      (.thrown (.moveError .GAME_NOT_FOUND), db) := by
  simp [executeMove, hp, hg]

/-- Once the four guards pass, the call debits the player and proceeds on the
stored board: this lemma characterizes all continuations at once, as a
function of the parse result, move resolution, timeout test and duplicate
test. -/
theorem executeMove_afterGuards (eng : Engine) (rnd : Nat) (now : Int) (db : DB)
    (gameId : Nat) (fm toPos : APos) (playerId : Int) (player0 : Player)
    (game : Game)
    (hp : findPlayer db playerId = some player0)
    (hg : findGame db gameId = some game)
    (hs : game.status = .ONGOING)
    (ha : game.player_id = playerId ∨ game.opponent_id = some playerId) :
    executeMove eng rnd now db gameId fm toPos playerId =
      (let player := debitedPlayer player0
       let dbD := updatePlayer db playerId player
       match game.board with
       | .unparseable => (.thrown (.moveError .FAILED_PARSING), dbD)
       | .notArray => (.thrown (.moveError .NOT_VALID_ARRAY), dbD)
       | .stored savedBoard =>
         match findMove eng savedBoard fm toPos with
         | none => (.thrown (.moveError .NOT_VALID_MOVE), dbD)
         | some moveToMake =>
           match lastMoveOf dbD gameId (some playerId) with
           | none =>
             commitPhase eng rnd now dbD gameId fm toPos playerId player game
               savedBoard moveToMake
           | some lm =>
             if timeoutExceeded now lm.createdAt then
               timeoutPhase now dbD gameId playerId game
             else if lm.from_position == fm && lm.to_position == toPos then
               (.thrown (.moveError .NOT_VALID_MOVE), dbD)
             else
               commitPhase eng rnd now dbD gameId fm toPos playerId player game
                 savedBoard moveToMake) := by
  have hauth : ¬(game.player_id ≠ playerId ∧ game.opponent_id ≠ some playerId) := by
    rcases ha with h | h <;> simp [h]
  have hstat : ¬(game.status ≠ GameStatus.ONGOING) := by simp [hs]
  simp only [executeMove, hp, hg]
  rw [if_neg hstat, if_neg hauth]

/-- The fully committing path: guards pass, the board parses, the move is
legal, and the timeout and duplicate guards both pass. -/
theorem executeMove_eq_commitPhase (eng : Engine) (rnd : Nat) (now : Int)
    (db : DB) (gameId : Nat) (fm toPos : APos) (playerId : Int)
    (player0 : Player) (game : Game) (savedBoard : SavedBoard)
    (moveToMake : DMove)
    (hp : findPlayer db playerId = some player0)
    (hg : findGame db gameId = some game)
    (hs : game.status = .ONGOING)
    (ha : game.player_id = playerId ∨ game.opponent_id = some playerId)
    (hb : game.board = .stored savedBoard)
    (hf : findMove eng savedBoard fm toPos = some moveToMake)
    (hlm : ∀ lm, lastMoveOf db gameId (some playerId) = some lm →
      timeoutExceeded now lm.createdAt = false ∧
      (lm.from_position == fm && lm.to_position == toPos) = false) :
    executeMove eng rnd now db gameId fm toPos playerId =
      commitPhase eng rnd now (updatePlayer db playerId (debitedPlayer player0))
        gameId fm toPos playerId (debitedPlayer player0) game savedBoard
        moveToMake := by
  rw [executeMove_afterGuards eng rnd now db gameId fm toPos playerId player0 game
    hp hg hs ha]
  simp only [hb, hf, lastMoveOf_updatePlayer]
  cases hcase : lastMoveOf db gameId (some playerId) with
  | none => rfl
  | some lm =>
    obtain ⟨h1, h2⟩ := hlm lm hcase
    simp [h1, h2]

/-- The timeout path: guards pass, the board parses, the move is legal, a
previous move of the actor exists and the threshold has elapsed. -/
theorem executeMove_eq_timeoutPhase (eng : Engine) (rnd : Nat) (now : Int)
    (db : DB) (gameId : Nat) (fm toPos : APos) (playerId : Int)
    (player0 : Player) (game : Game) (savedBoard : SavedBoard)
    (moveToMake : DMove) (lm : MoveRec)
    (hp : findPlayer db playerId = some player0)
    (hg : findGame db gameId = some game)
    (hs : game.status = .ONGOING)
    (ha : game.player_id = playerId ∨ game.opponent_id = some playerId)
    (hb : game.board = .stored savedBoard)
    (hf : findMove eng savedBoard fm toPos = some moveToMake)
    (hlm : lastMoveOf db gameId (some playerId) = some lm)
    (ht : timeoutExceeded now lm.createdAt = true) :
    executeMove eng rnd now db gameId fm toPos playerId =
      timeoutPhase now (updatePlayer db playerId (debitedPlayer player0)) gameId
        playerId game := by
  rw [executeMove_afterGuards eng rnd now db gameId fm toPos playerId player0 game
    hp hg hs ha]
  simp only [hb, hf, lastMoveOf_updatePlayer, hlm, ht, if_true]

/-- The illegal-move path: guards pass, the board parses, but the submitted
pair resolves to no legal move; the call fails NOT_VALID_MOVE with only the
debit applied, whatever the timeout state. -/
theorem executeMove_notValidMove (eng : Engine) (rnd : Nat) (now : Int)
    (db : DB) (gameId : Nat) (fm toPos : APos) (playerId : Int)
    (player0 : Player) (game : Game) (savedBoard : SavedBoard)
    (hp : findPlayer db playerId = some player0)
    (hg : findGame db gameId = some game)
    (hs : game.status = .ONGOING)
    (ha : game.player_id = playerId ∨ game.opponent_id = some playerId)
    (hb : game.board = .stored savedBoard)
    (hf : findMove eng savedBoard fm toPos = none) :
    executeMove eng rnd now db gameId fm toPos playerId =
      (.thrown (.moveError .NOT_VALID_MOVE),
       updatePlayer db playerId (debitedPlayer player0)) := by
  rw [executeMove_afterGuards eng rnd now db gameId fm toPos playerId player0 game
    hp hg hs ha]
  simp only [hb, hf]

/-- The duplicate-move path: guards pass, the board parses, the move is
legal, the timeout has not elapsed, and the pair equals the previous move of
the actor; the call fails NOT_VALID_MOVE with only the debit applied. -/
theorem executeMove_duplicate (eng : Engine) (rnd : Nat) (now : Int)
    (db : DB) (gameId : Nat) (fm toPos : APos) (playerId : Int)
    (player0 : Player) (game : Game) (savedBoard : SavedBoard)
    (moveToMake : DMove) (lm : MoveRec)
    (hp : findPlayer db playerId = some player0)
    (hg : findGame db gameId = some game)
    (hs : game.status = .ONGOING)
    (ha : game.player_id = playerId ∨ game.opponent_id = some playerId)
    (hb : game.board = .stored savedBoard)
    (hf : findMove eng savedBoard fm toPos = some moveToMake)
    (hlm : lastMoveOf db gameId (some playerId) = some lm)
    (ht : timeoutExceeded now lm.createdAt = false)
    (hdup : lm.from_position = fm ∧ lm.to_position = toPos) :
    executeMove eng rnd now db gameId fm toPos playerId =
      (.thrown (.moveError .NOT_VALID_MOVE),
       updatePlayer db playerId (debitedPlayer player0)) := by
  rw [executeMove_afterGuards eng rnd now db gameId fm toPos playerId player0 game
    hp hg hs ha]
  simp [hb, hf, lastMoveOf_updatePlayer, hlm, ht, hdup.1, hdup.2]

/-- C9: Position conversion is a bijection between algebraic and linear form:
for every algebraic position with file A-H and rank 1-8,
`convertPositionBack (convertPosition p) = p`, and for every linear index
0-63, `convertPosition (convertPositionBack i) = i`. -/
theorem convertPosition_bijection :
    (∀ p : APos, p.fileChar ∈ boardFiles → p.rankDigit ∈ boardRanks →
      convertPositionBack (convertPosition p) = p) ∧
    (∀ i : Int, 0 ≤ i → i < 64 →
      convertPosition (convertPositionBack i) = i) := by
  constructor
  · rintro ⟨f, r⟩ hf hr
    fin_cases hf <;> fin_cases hr <;> decide
  · intro i h0 h64
    interval_cases i <;> decide

/-- Witness for C9 at the concrete position C5 and the concrete index 20. -/
theorem convertPosition_bijection_witness :
    convertPositionBack (convertPosition ⟨'C', 5⟩) = ⟨'C', 5⟩ ∧
    convertPosition (convertPositionBack 20) = 20 :=
  ⟨convertPosition_bijection.1 ⟨'C', 5⟩ (by decide) (by decide),
   convertPosition_bijection.2 20 (by decide) (by decide)⟩


/-- C10: For every executeMove call whose actorId matches no existing player,
the call throws the generic "Player not found." error outside the typed
failure taxonomy, before the GameNotFound, GameNotInProgress and
Unauthorized checks are evaluated (the result is the same whatever the game
state is); and GameNotFound is only ever reported when the actor exists as a
player. -/
theorem playerNotFound_precedes_game_checks (eng : Engine) (rnd : Nat)
    (now : Int) (db : DB) (gameId : Nat) (fm toPos : APos) (playerId : Int) :
    (findPlayer db playerId = none →
      executeMove eng rnd now db gameId fm toPos playerId =
        (.thrown (.genericError "Player not found."), db)) ∧
    ((executeMove eng rnd now db gameId fm toPos playerId).1 =
        .thrown (.moveError .GAME_NOT_FOUND) →
      ∃ p, findPlayer db playerId = some p) := by
  constructor
  · exact fun hp => executeMove_noPlayer eng rnd now db gameId fm toPos playerId hp
  · intro h
    cases hp : findPlayer db playerId with
    | none =>
      rw [executeMove_noPlayer eng rnd now db gameId fm toPos playerId hp] at h
      simp at h
    | some p => exact ⟨p, rfl⟩

/-- Witness for C10: on the empty database, actor 7 gets the generic
untyped error even though the game lookup would also fail. -/
theorem playerNotFound_precedes_game_checks_witness :
    executeMove engTriv 0 0 dbEmpty 1 pA1 pB2 7 =
      (.thrown (.genericError "Player not found."), dbEmpty) :=
  (playerNotFound_precedes_game_checks engTriv 0 0 dbEmpty 1 pA1 pB2 7).1 (by decide)

/-- The committing tail never throws: every continuation of `commitPhase`
returns a game-over or move-executed result. -/
theorem commitPhase_not_thrown (eng : Engine) (rnd : Nat) (now : Int) (db : DB)
    (gameId : Nat) (fm toPos : APos) (playerId : Int) (player : Player)
    (game : Game) (savedBoard : SavedBoard) (moveToMake : DMove) (t : Thrown) :
    (commitPhase eng rnd now db gameId fm toPos playerId player game savedBoard
      moveToMake).1 ≠ Outcome.thrown t := by
  unfold commitPhase
  dsimp only
  split
  · simp
  · split
    · split <;> [skip; simp] <;> split <;> simp
    · simp

/-- Any thrown failure after the four guards leaves the database exactly at
the unconditional debit. -/
theorem executeMove_thrown_db (eng : Engine) (rnd : Nat) (now : Int) (db : DB)
    (gameId : Nat) (fm toPos : APos) (playerId : Int) (player0 : Player)
    (game : Game) (t : Thrown)
    (hp : findPlayer db playerId = some player0)
    (hg : findGame db gameId = some game)
    (hs : game.status = .ONGOING)
    (ha : game.player_id = playerId ∨ game.opponent_id = some playerId)
    (h : (executeMove eng rnd now db gameId fm toPos playerId).1 = .thrown t) :
    (executeMove eng rnd now db gameId fm toPos playerId).2 =
      updatePlayer db playerId (debitedPlayer player0) := by
  rw [executeMove_afterGuards eng rnd now db gameId fm toPos playerId player0 game
    hp hg hs ha] at h ⊢
  dsimp only at h ⊢
  cases hbd : game.board with
  | unparseable => rfl
  | notArray => rfl
  | stored savedBoard =>
    rw [hbd] at h
    dsimp only at h ⊢
    cases hfm : findMove eng savedBoard fm toPos with
    | none => rfl
    | some mv =>
      rw [hfm] at h
      dsimp only at h ⊢
      cases hlm : lastMoveOf (updatePlayer db playerId (debitedPlayer player0))
          gameId (some playerId) with
      | none =>
        rw [hlm] at h
        dsimp only at h
        exact absurd h (commitPhase_not_thrown eng rnd now _ gameId fm toPos
          playerId _ game savedBoard mv t)
      | some lm =>
        rw [hlm] at h
        dsimp only at h ⊢
        by_cases hto : timeoutExceeded now lm.createdAt
        · rw [if_pos hto] at h
          simp [timeoutPhase] at h
        · rw [if_neg hto] at h ⊢
          by_cases hdup : (lm.from_position == fm && lm.to_position == toPos) = true
          · rw [if_pos hdup]
          · rw [if_neg hdup] at h ⊢
            exact absurd h (commitPhase_not_thrown eng rnd now _ gameId fm toPos
              playerId _ game savedBoard mv t)

/-- C2 (amended): the balance is debited unconditionally — `executeMove`
performs no insufficiency check and raises no ResourceError: after the four
guards pass, any submission that still fails (unparseable board, invalid
board structure, illegal or duplicate move — every thrown outcome) leaves
the database exactly at the debit, with the session row and the move
history untouched and the balance reduced by the move cost whether or not
the balance was sufficient. -/
theorem debit_unconditional_no_resource_check (eng : Engine) (rnd : Nat)
    (now : Int) (db : DB) (gameId : Nat) (fm toPos : APos) (playerId : Int)
    (player0 : Player) (game : Game) (t : Thrown)
    (hp : findPlayer db playerId = some player0)
    (hg : findGame db gameId = some game)
    (hs : game.status = .ONGOING)
    (ha : game.player_id = playerId ∨ game.opponent_id = some playerId)
    (hfail : (executeMove eng rnd now db gameId fm toPos playerId).1 = .thrown t) :
    (executeMove eng rnd now db gameId fm toPos playerId).2 =
        updatePlayer db playerId (debitedPlayer player0) ∧
    findGame (executeMove eng rnd now db gameId fm toPos playerId).2 gameId =
        some game ∧
    (executeMove eng rnd now db gameId fm toPos playerId).2.moves = db.moves ∧
    findPlayer (executeMove eng rnd now db gameId fm toPos playerId).2 playerId =
        some { player0 with tokens := player0.tokens - MOVE_COST } := by
  have key := executeMove_thrown_db eng rnd now db gameId fm toPos playerId
    player0 game t hp hg hs ha hfail
  refine ⟨key, ?_, ?_, ?_⟩
  · rw [key]
    exact hg
  · rw [key]
    rfl
  · rw [key]
    exact findPlayer_updatePlayer_self db playerId _ player0 hp

/-- Witness for C2 (amended): a submission of an illegal move in the fresh
PvP fixture fails NOT_VALID_MOVE, with the history unchanged and the
balance debited anyway. -/
theorem debit_unconditional_no_resource_check_witness :
    (executeMove engPlay 0 0 dbPvpFresh 1 pC3 pD4 1).2.moves = dbPvpFresh.moves ∧
    findPlayer (executeMove engPlay 0 0 dbPvpFresh 1 pC3 pD4 1).2 1 =
      some { playerRich with tokens := playerRich.tokens - MOVE_COST } := by
  have h := debit_unconditional_no_resource_check engPlay 0 0 dbPvpFresh 1
    pC3 pD4 1 playerRich gamePvp (.moveError .NOT_VALID_MOVE)
    (by rfl) (by rfl) (by rfl) (Or.inl rfl) (by rfl)
  exact ⟨h.2.2.1, h.2.2.2⟩

/-- Counterexample for C2 as stated: with a zero balance (insufficient for
the positive move cost) the submission is accepted, no error of any kind is
raised, and the balance simply goes negative. -/
theorem insufficient_balance_accepted :
    (findPlayer dbPvpBroke 1).map Player.tokens = some 0 ∧
    0 < MOVE_COST ∧
    (executeMove engPlay 0 0 dbPvpBroke 1 pA1 pB2 1).1 = .moveExecuted 1 false ∧
    (findPlayer (executeMove engPlay 0 0 dbPvpBroke 1 pA1 pB2 1).2 1).map
        Player.tokens = some (-(1 / 50)) := by
  refine ⟨rfl, by norm_num [MOVE_COST], rfl, ?_⟩
  have h : findPlayer (executeMove engPlay 0 0 dbPvpBroke 1 pA1 pB2 1).2 1 =
      some (debitedPlayer playerBroke) := rfl
  rw [h]
  simp [debitedPlayer, playerBroke, MOVE_COST]

/-- C1 (amended): the timeout check runs after move validation, not before
it; once a legal move is submitted and the elapsed time since the last
recorded move of the actor exceeds the threshold, the session is forced to
TimedOut with `ended_at` set and the opposing participant (or the AI
sentinel `-1` in PvE) as winner, a 0.5-point penalty is applied to the
actor (whose move cost was already debited), and the call returns
immediately with the submitted move never committed. -/
theorem timeout_after_validation (eng : Engine) (rnd : Nat) (now : Int)
    (db : DB) (gameId : Nat) (fm toPos : APos) (playerId : Int)
    (player0 : Player) (game : Game) (savedBoard : SavedBoard)
    (moveToMake : DMove) (lm : MoveRec)
    (hp : findPlayer db playerId = some player0)
    (hg : findGame db gameId = some game)
    (hs : game.status = .ONGOING)
    (ha : game.player_id = playerId ∨ game.opponent_id = some playerId)
    (hb : game.board = .stored savedBoard)
    (hf : findMove eng savedBoard fm toPos = some moveToMake)
    (hlm : lastMoveOf db gameId (some playerId) = some lm)
    (ht : timeoutExceeded now lm.createdAt = true) :
    (executeMove eng rnd now db gameId fm toPos playerId).1 =
        .timeoutEnded gameId .TIMED_OUT ∧
    findGame (executeMove eng rnd now db gameId fm toPos playerId).2 gameId =
        some { game with
               status := .TIMED_OUT, ended_at := some now,
               winner_id :=
                 if game.opponent_id = none then some (-1)
                 else if game.player_id = playerId then game.opponent_id
                 else some game.player_id } ∧
    (executeMove eng rnd now db gameId fm toPos playerId).2.moves = db.moves ∧
    findPlayer (executeMove eng rnd now db gameId fm toPos playerId).2 playerId =
        some { player0 with
               tokens := player0.tokens - MOVE_COST,
               score := player0.score - 1 / 2 } := by
  rw [executeMove_eq_timeoutPhase eng rnd now db gameId fm toPos playerId player0
    game savedBoard moveToMake lm hp hg hs ha hb hf hlm ht]
  unfold timeoutPhase
  dsimp only
  rw [findPlayer_updateGame, findPlayer_updatePlayer_self db playerId _ player0 hp]
  dsimp only
  refine ⟨rfl, ?_, rfl, ?_⟩
  · rw [findGame_updatePlayer]
    exact findGame_updateGame_self _ gameId _ game hg
  · exact findPlayer_updatePlayer_self _ playerId _ (debitedPlayer player0)
      (by rw [findPlayer_updateGame]
          exact findPlayer_updatePlayer_self db playerId _ player0 hp)

/-- Witness for C1 (amended): in the PvE fixture with an hour-old last move,
submitting the legal pair A1-B2 at time 70000 ends the session by timeout
and commits no move. -/
theorem timeout_after_validation_witness :
    (executeMove engPlay 0 70000 dbPveHist 1 pA1 pB2 1).1 =
      .timeoutEnded 1 .TIMED_OUT ∧
    (executeMove engPlay 0 70000 dbPveHist 1 pA1 pB2 1).2.moves =
      dbPveHist.moves := by
  have h := timeout_after_validation engPlay 0 70000 dbPveHist 1 pA1 pB2 1
    playerRich gamePve (.flat [sqMan]) mvPlayer recPlayerOld
    rfl rfl rfl (Or.inl rfl) rfl rfl rfl (by decide)
  exact ⟨h.1, h.2.2.1⟩

/-- Counterexample for C1 as stated: an actor whose timeout has elapsed
submits an illegal move, and the call rejects it as NOT_VALID_MOVE — the
move was evaluated for legality first — leaving the session Ongoing instead
of forcing TimedOut. -/
theorem timeout_not_before_validation :
    (lastMoveOf dbPveHist 1 (some 1)).map MoveRec.createdAt = some 0 ∧
    timeoutExceeded 70000 0 = true ∧
    (executeMove engPlay 0 70000 dbPveHist 1 pC3 pD4 1).1 =
      .thrown (.moveError .NOT_VALID_MOVE) ∧
    (findGame (executeMove engPlay 0 70000 dbPveHist 1 pC3 pD4 1).2 1).map
      Game.status = some .ONGOING := by
  exact ⟨rfl, by decide, rfl, rfl⟩

/-- C5 (amended): provided the call passes the lookup, status and
authorization guards, the stored board parses, and the timeout threshold
has not elapsed, a submission whose pair equals the immediately preceding
recorded move of the actor is rejected with the RuleViolation error
NOT_VALID_MOVE whether or not the pair is a legal move on the current
board. -/
theorem duplicate_rejected_within_threshold (eng : Engine) (rnd : Nat)
    (now : Int) (db : DB) (gameId : Nat) (fm toPos : APos) (playerId : Int)
    (player0 : Player) (game : Game) (savedBoard : SavedBoard) (lm : MoveRec)
    (hp : findPlayer db playerId = some player0)
    (hg : findGame db gameId = some game)
    (hs : game.status = .ONGOING)
    (ha : game.player_id = playerId ∨ game.opponent_id = some playerId)
    (hb : game.board = .stored savedBoard)
    (hlm : lastMoveOf db gameId (some playerId) = some lm)
    (hdup : lm.from_position = fm ∧ lm.to_position = toPos)
    (ht : timeoutExceeded now lm.createdAt = false) :
    (executeMove eng rnd now db gameId fm toPos playerId).1 =
      .thrown (.moveError .NOT_VALID_MOVE) := by
  cases hfm : findMove eng savedBoard fm toPos with
  | none =>
    rw [executeMove_notValidMove eng rnd now db gameId fm toPos playerId player0
      game savedBoard hp hg hs ha hb hfm]
  | some mv =>
    rw [executeMove_duplicate eng rnd now db gameId fm toPos playerId player0
      game savedBoard mv lm hp hg hs ha hb hfm hlm ht hdup]

/-- Witness for C5 (amended): resubmitting the legal pair A1-B2 half a
minute after it was recorded is rejected with NOT_VALID_MOVE. -/
theorem duplicate_rejected_within_threshold_witness :
    (executeMove engPlay 0 30000 dbPveHist 1 pA1 pB2 1).1 =
      .thrown (.moveError .NOT_VALID_MOVE) :=
  duplicate_rejected_within_threshold engPlay 0 30000 dbPveHist 1 pA1 pB2 1
    playerRich gamePve (.flat [sqMan]) recPlayerOld
    rfl rfl rfl (Or.inl rfl) rfl rfl ⟨rfl, rfl⟩ (by decide)

/-- Counterexample for C5 as stated: resubmitting the legal pair of the
immediately preceding recorded move after the timeout threshold elapses is
not rejected with a RuleViolation — the call ends the session by timeout
instead. -/
theorem duplicate_after_timeout_not_ruleViolation :
    (lastMoveOf dbPveHist 1 (some 1)).map
        (fun m => (m.from_position, m.to_position)) = some (pA1, pB2) ∧
    (executeMove engPlay 0 70000 dbPveHist 1 pA1 pB2 1).1 =
      .timeoutEnded 1 .TIMED_OUT ∧
    ∀ t, (executeMove engPlay 0 70000 dbPveHist 1 pA1 pB2 1).1 ≠ .thrown t := by
  have he : (executeMove engPlay 0 70000 dbPveHist 1 pA1 pB2 1).1 =
      .timeoutEnded 1 .TIMED_OUT := rfl
  refine ⟨rfl, he, ?_⟩
  intro t h
  rw [he] at h
  exact Outcome.noConfusion h

/-- A fold that at each step keeps either the accumulator or the list element
ends inside the accumulator-or-list candidates. -/
theorem foldl_choice_mem {α : Type} (value : α → Int) (l : List α) (b0 : α) :
    l.foldl (fun best m => if value best < value m then m else best) b0 ∈ b0 :: l := by
  induction l generalizing b0 with
  | nil => simp
  | cons x xs ih =>
    have h := ih (if value b0 < value x then x else b0)
    rw [List.foldl_cons]
    rcases List.mem_cons.mp h with h1 | h1
    · rw [h1]
      by_cases hc : value b0 < value x
      · simp [hc]
      · simp [hc]
    · exact List.mem_cons_of_mem _ (List.mem_cons_of_mem _ h1)

/-- The Hard computer returns none exactly on an empty move list and only
ever chooses a current legal move. -/
theorem alphaBetaComputer_spec (eng : Engine) (d : DraughtsState) :
    (alphaBetaComputer eng d = none ↔ eng.movesOf d = []) ∧
    ∀ m, alphaBetaComputer eng d = some m → m ∈ eng.movesOf d := by
  unfold alphaBetaComputer
  cases hms : eng.movesOf d with
  | nil => simp
  | cons m0 rest =>
    constructor
    · simp
    · intro m hm
      dsimp only at hm
      rw [Option.some.injEq] at hm
      rw [← hm]
      exact foldl_choice_mem _ rest m0

/-- The Easy computer returns none exactly on an empty move list and only
ever chooses a current legal move. -/
theorem randomComputer_spec (eng : Engine) (rnd : Nat) (d : DraughtsState) :
    (randomComputer eng rnd d = none ↔ eng.movesOf d = []) ∧
    ∀ m, randomComputer eng rnd d = some m → m ∈ eng.movesOf d := by
  unfold randomComputer
  dsimp only
  constructor
  · constructor
    · intro h
      cases hms : eng.movesOf d with
      | nil => rfl
      | cons x xs =>
        rw [hms] at h
        have hlt : rnd % (x :: xs).length < (x :: xs).length :=
          Nat.mod_lt _ (by simp)
        rw [List.get?_eq_get hlt] at h
        exact Option.noConfusion h
    · intro h
      rw [h]
      rfl
  · intro m hm
    exact List.get?_mem hm

/-- C4 (amended): at the EASY and HARD difficulties the AI move selector
never returns a move outside the current legal-move set and returns none
exactly when the legal-move set is empty; the counterexample shows the
original claim fails at the third difficulty, ABSENT, where the selector
returns none even with legal moves available. -/
theorem aiSelector_within_legalMoves (eng : Engine) (rnd : Nat)
    (d : DraughtsState) (diff : AIDifficulty)
    (hd : diff = .EASY ∨ diff = .HARD) :
    (chooseAIMove eng rnd d diff = none ↔ eng.movesOf d = []) ∧
    ∀ m, chooseAIMove eng rnd d diff = some m → m ∈ eng.movesOf d := by
  unfold chooseAIMove
  dsimp only
  by_cases hlen : (eng.movesOf d).length = 0
  · have hnil : eng.movesOf d = [] := List.length_eq_zero.mp hlen
    simp [hlen, hnil]
  · rw [if_neg hlen]
    rcases hd with h | h <;> subst h <;> dsimp only
    · exact randomComputer_spec eng rnd d
    · exact alphaBetaComputer_spec eng d

/-- Witness for C4 (amended): at EASY on the one-move fixture position, the
selector returns the unique legal move, which is legal. -/
theorem aiSelector_within_legalMoves_witness :
    chooseAIMove engPlay 0 ⟨[sqMan], true⟩ .EASY = some mvPlayer ∧
    mvPlayer ∈ engPlay.movesOf ⟨[sqMan], true⟩ := by
  have h := aiSelector_within_legalMoves engPlay 0 ⟨[sqMan], true⟩ .EASY (Or.inl rfl)
  exact ⟨by decide, h.2 mvPlayer (by decide)⟩

/-- Counterexample for C4 as stated: with difficulty ABSENT (the `default`
branch of `chooseAIMove`) the selector returns none although the legal-move
set of the position is nonempty. -/
theorem absent_difficulty_ignores_legalMoves :
    engPlay.movesOf ⟨[sqMan], true⟩ ≠ [] ∧
    chooseAIMove engPlay 0 ⟨[sqMan], true⟩ .ABSENT = none := by
  exact ⟨by decide, rfl⟩

theorem findPlayer_updatePlayer_ne (db : DB) (pid : Int) (p : Player) (w : Int)
    (h : pid ≠ w) :
    findPlayer (updatePlayer db pid p) w = findPlayer db w :=
  lookupList_updateList_ne db.players pid w p h

theorem findGame_updateGame_ne (db : DB) (gid : Nat) (g : Game) (gid2 : Nat)
    (h : gid ≠ gid2) :
    findGame (updateGame db gid g) gid2 = findGame db gid2 :=
  lookupList_updateList_ne db.games gid gid2 g h

theorem movesOfGame_addMove_other (db : DB) (m : MoveRec) (gid : Nat)
    (h : m.game_id ≠ gid) :
    movesOfGame (addMove db m) gid = movesOfGame db gid := by
  simp [movesOfGame, addMove, h]

theorem lastMoveOf_updateGame (db : DB) (gid2 : Nat) (g : Game) (gid : Nat)
    (uid : Option Int) :
    lastMoveOf (updateGame db gid2 g) gid uid = lastMoveOf db gid uid := rfl

/-- `movesOfGame` reads only the move table. -/
theorem movesOfGame_eq_of_moves (db1 db2 : DB) (gid : Nat)
    (h : db1.moves = db2.moves) :
    movesOfGame db1 gid = movesOfGame db2 gid := by
  unfold movesOfGame
  rw [h]

/-- The AI-reply selection does not see an appended player record. -/
theorem aiReply_addMove_player (eng : Engine) (rnd : Nat) (db : DB)
    (m : MoveRec) (gid : Nat) (d : DraughtsState) (diff : AIDifficulty)
    (pid : Int) (h : m.user_id = some pid) :
    aiReply eng rnd (addMove db m) gid d diff = aiReply eng rnd db gid d diff := by
  unfold aiReply
  rw [lastMoveOf_addMove_player db m gid pid h]

/-- The AI-reply selection does not read the game table. -/
theorem aiReply_updateGame (eng : Engine) (rnd : Nat) (db : DB) (gid2 : Nat)
    (g : Game) (gid : Nat) (d : DraughtsState) (diff : AIDifficulty) :
    aiReply eng rnd (updateGame db gid2 g) gid d diff =
      aiReply eng rnd db gid d diff := rfl

/-- The AI-reply selection does not read the player table. -/
theorem aiReply_updatePlayer (eng : Engine) (rnd : Nat) (db : DB) (pid : Int)
    (p : Player) (gid : Nat) (d : DraughtsState) (diff : AIDifficulty) :
    aiReply eng rnd (updatePlayer db pid p) gid d diff =
      aiReply eng rnd db gid d diff := rfl

/-- `handleGameOver` never changes any token balance: its only player write
adds a score point, keeping tokens. -/
theorem handleGameOver_tokens (eng : Engine) (draughts : DraughtsState)
    (gameId : Nat) (game : Game) (db : DB) (now : Int) (pid : Int) :
    (findPlayer (handleGameOver eng draughts gameId game db now).db pid).map
        Player.tokens =
      (findPlayer db pid).map Player.tokens := by
  unfold handleGameOver
  dsimp only
  split
  · rename_i w hw
    rw [findPlayer_updateGame]
    cases hpw : findPlayer db w with
    | none =>
      dsimp only
      rw [findPlayer_updateGame]
    | some p =>
      dsimp only
      by_cases hwp : w = pid
      · subst hwp
        rw [findPlayer_updatePlayer_self _ w _ p
          (by rw [findPlayer_updateGame]; exact hpw)]
        rw [hpw]
        rfl
      · rw [findPlayer_updatePlayer_ne _ w _ pid hwp, findPlayer_updateGame]
  · rw [findPlayer_updateGame]

/-- `handleGameOver` never touches the move table. -/
theorem handleGameOver_moves (eng : Engine) (draughts : DraughtsState)
    (gameId : Nat) (game : Game) (db : DB) (now : Int) :
    (handleGameOver eng draughts gameId game db now).db.moves = db.moves := by
  unfold handleGameOver
  dsimp only
  split
  · split
    · rfl
    · rfl
  · rfl

/-- What `handleGameOver` does to the game row and the winner row: the game
is completed with `ended_at` and the code winner resolution, and when the
winner id matches a stored player that player gains one score point. -/
theorem handleGameOver_spec (eng : Engine) (draughts : DraughtsState)
    (gameId : Nat) (game : Game) (db : DB) (now : Int) (g0 : Game)
    (W : Option Int)
    (hg0 : findGame db gameId = some g0)
    (hW : W = (if eng.statusOf draughts = .LIGHT_WON then some game.player_id
               else if eng.statusOf draughts = .DARK_WON then
                 (if game.type = .PVE then some (-1) else game.opponent_id)
               else none)) :
    findGame (handleGameOver eng draughts gameId game db now).db gameId =
      some { game with
             status := .COMPLETED, ended_at := some now, winner_id := W } ∧
    ∀ w pw, W = some w → findPlayer db w = some pw →
      findPlayer (handleGameOver eng draughts gameId game db now).db w =
        some { pw with score := pw.score + 1 } := by
  unfold handleGameOver
  dsimp only
  rw [← hW]
  cases hw : W with
  | none =>
    dsimp only
    refine ⟨findGame_updateGame_self db gameId _ g0 hg0, ?_⟩
    intro w pw h1 h2
    exact Option.noConfusion h1
  | some w =>
    dsimp only
    rw [findPlayer_updateGame]
    cases hpw : findPlayer db w with
    | none =>
      dsimp only
      refine ⟨findGame_updateGame_self db gameId _ g0 hg0, ?_⟩
      intro w2 pw h1 h2
      rw [Option.some.injEq] at h1
      subst h1
      rw [hpw] at h2
      exact Option.noConfusion h2
    | some p =>
      dsimp only
      constructor
      · rw [findGame_updatePlayer]
        exact findGame_updateGame_self db gameId _ g0 hg0
      · intro w2 pw h1 h2
        rw [Option.some.injEq] at h1
        subst h1
        rw [hpw] at h2
        rw [Option.some.injEq] at h2
        subst h2
        exact findPlayer_updatePlayer_self _ w _ p
          (by rw [findPlayer_updateGame]; exact hpw)

/-- C8: in every PvE round in which the AI replies, the human player is
debited twice: the final balance is the starting balance minus twice the
move cost (once for the human half-move, once again for the AI half-move),
whether or not the AI reply ends the game. -/
theorem pve_round_double_debit (eng : Engine) (rnd : Nat) (now : Int)
    (db : DB) (gameId : Nat) (fm toPos : APos) (playerId : Int)
    (player0 : Player) (game : Game) (savedBoard : SavedBoard)
    (moveToMake : DMove) (am : DMove)
    (hp : findPlayer db playerId = some player0)
    (hg : findGame db gameId = some game)
    (hs : game.status = .ONGOING)
    (ha : game.player_id = playerId ∨ game.opponent_id = some playerId)
    (hb : game.board = .stored savedBoard)
    (hf : findMove eng savedBoard fm toPos = some moveToMake)
    (hlm : ∀ lm, lastMoveOf db gameId (some playerId) = some lm →
      timeoutExceeded now lm.createdAt = false ∧
      (lm.from_position == fm && lm.to_position == toPos) = false)
    (hterm1 : terminalCheck (eng.statusOf (eng.applyMove
      (loadDraughts eng savedBoard.flatten) moveToMake)) = false)
    (htype : game.type = .PVE)
    (hai : aiReply eng rnd db gameId
      (eng.applyMove (loadDraughts eng savedBoard.flatten) moveToMake)
      game.ai_difficulty = some am) :
    (findPlayer (executeMove eng rnd now db gameId fm toPos playerId).2
        playerId).map Player.tokens =
      some (player0.tokens - 2 * MOVE_COST) := by
  rw [executeMove_eq_commitPhase eng rnd now db gameId fm toPos playerId player0
    game savedBoard moveToMake hp hg hs ha hb hf hlm]
  unfold commitPhase
  dsimp only
  rw [hterm1, if_neg Bool.false_ne_true, htype, if_pos rfl]
  rw [aiReply_addMove_player eng rnd _ _ gameId _ _ playerId rfl,
    aiReply_updateGame, aiReply_updatePlayer, hai]
  dsimp only
  have hEx : ∀ (g1 g2 : Game) (r : MoveRec),
      findPlayer (updateGame (addMove (updateGame
        (updatePlayer db playerId (debitedPlayer player0)) gameId g1) r) gameId
        g2) playerId = some (debitedPlayer player0) := by
    intro g1 g2 r
    rw [findPlayer_updateGame, findPlayer_addMove, findPlayer_updateGame]
    exact findPlayer_updatePlayer_self db playerId _ player0 hp
  split
  · rw [handleGameOver_tokens]
    rw [findPlayer_addMove,
      findPlayer_updatePlayer_self _ playerId _ _ (hEx _ _ _)]
    dsimp only [debitedPlayer, Option.map]
    rw [Option.some.injEq]
    ring
  · rw [findPlayer_addMove,
      findPlayer_updatePlayer_self _ playerId _ _ (hEx _ _ _)]
    dsimp only [debitedPlayer, Option.map]
    rw [Option.some.injEq]
    ring

/-- Witness for C8: in the fresh PvE fixture, one round (human move plus
Easy AI reply) leaves a balance of 10 - 2/50. -/
theorem pve_round_double_debit_witness :
    (findPlayer (executeMove engPlay 0 0 dbPveFresh 1 pA1 pB2 1).2 1).map
        Player.tokens = some (10 - 2 * MOVE_COST) :=
  pve_round_double_debit engPlay 0 0 dbPveFresh 1 pA1 pB2 1 playerRich
    { gamePve with total_moves := 0 } (.flat [sqMan]) mvPlayer mvAI
    rfl rfl rfl (Or.inl rfl) rfl rfl
    (by intro lm h; exact Option.noConfusion h)
    rfl rfl rfl

/-- C7: in a PvE continuation, when the chosen AI move equals the AI's own
immediately preceding recorded move and an alternative legal move exists,
the selection deterministically substitutes the first alternative (no
re-randomization), and the AI still plays: the round appends two records,
the newest being the AI record of that first alternative. -/
theorem pve_antirepetition_first_alternative (eng : Engine) (rnd : Nat)
    (now : Int) (db : DB) (gameId : Nat) (fm toPos : APos) (playerId : Int)
    (player0 : Player) (game : Game) (savedBoard : SavedBoard)
    (moveToMake : DMove) (lam : MoveRec) (am alt : DMove)
    (hp : findPlayer db playerId = some player0)
    (hg : findGame db gameId = some game)
    (hs : game.status = .ONGOING)
    (ha : game.player_id = playerId ∨ game.opponent_id = some playerId)
    (hb : game.board = .stored savedBoard)
    (hf : findMove eng savedBoard fm toPos = some moveToMake)
    (hlm : ∀ lm, lastMoveOf db gameId (some playerId) = some lm →
      timeoutExceeded now lm.createdAt = false ∧
      (lm.from_position == fm && lm.to_position == toPos) = false)
    (hterm1 : terminalCheck (eng.statusOf (eng.applyMove
      (loadDraughts eng savedBoard.flatten) moveToMake)) = false)
    (htype : game.type = .PVE)
    (hlam : lastMoveOf db gameId none = some lam)
    (hcho : chooseAIMove eng rnd
      (eng.applyMove (loadDraughts eng savedBoard.flatten) moveToMake)
      game.ai_difficulty = some am)
    (heq : (am.origin == convertPosition lam.from_position &&
      am.destination == convertPosition lam.to_position) = true)
    (halt : ((eng.movesOf (eng.applyMove (loadDraughts eng savedBoard.flatten)
        moveToMake)).filter
      (fun m => !(m.origin == am.origin && m.destination == am.destination))).head?
      = some alt) :
    aiReply eng rnd db gameId
        (eng.applyMove (loadDraughts eng savedBoard.flatten) moveToMake)
        game.ai_difficulty = some alt ∧
    (executeMove eng rnd now db gameId fm toPos playerId).2.moves.length =
        db.moves.length + 2 ∧
    ((executeMove eng rnd now db gameId fm toPos playerId).2.moves.head?).map
        (fun m => (m.from_position, m.to_position, m.user_id)) =
      some (convertPositionBack alt.origin, convertPositionBack alt.destination,
        (none : Option Int)) := by
  have h1 : aiReply eng rnd db gameId
      (eng.applyMove (loadDraughts eng savedBoard.flatten) moveToMake)
      game.ai_difficulty = some alt := by
    unfold aiReply
    rw [hlam, hcho]
    dsimp only
    rw [heq, if_pos rfl]
    exact halt
  refine ⟨h1, ?_⟩
  rw [executeMove_eq_commitPhase eng rnd now db gameId fm toPos playerId player0
    game savedBoard moveToMake hp hg hs ha hb hf hlm]
  unfold commitPhase
  dsimp only
  rw [hterm1, if_neg Bool.false_ne_true, htype, if_pos rfl]
  rw [aiReply_addMove_player eng rnd _ _ gameId _ _ playerId rfl,
    aiReply_updateGame, aiReply_updatePlayer, h1]
  dsimp only
  split
  · rw [handleGameOver_moves]
    constructor
    · simp [addMove, updateGame, updatePlayer]
    · simp [addMove]
  · constructor
    · simp [addMove, updateGame, updatePlayer]
    · simp [addMove]

/-- Witness for C7: in the PvE fixture whose only record is the old AI move
C3-D4, the Easy choice repeats it, so the first alternative D4-E5 is played
as the newest of the two appended records. -/
theorem pve_antirepetition_first_alternative_witness :
    aiReply engPlay 0 dbPveSub 1
        (engPlay.applyMove (loadDraughts engPlay
          (SavedBoard.flat [sqMan]).flatten) mvPlayer)
        gamePve.ai_difficulty = some mvAlt ∧
    (executeMove engPlay 0 0 dbPveSub 1 pA1 pB2 1).2.moves.length =
        dbPveSub.moves.length + 2 ∧
    ((executeMove engPlay 0 0 dbPveSub 1 pA1 pB2 1).2.moves.head?).map
        (fun m => (m.from_position, m.to_position, m.user_id)) =
      some (convertPositionBack mvAlt.origin, convertPositionBack mvAlt.destination,
        (none : Option Int)) :=
  pve_antirepetition_first_alternative engPlay 0 0 dbPveSub 1 pA1 pB2 1
    playerRich gamePve (.flat [sqMan]) mvPlayer recAIOld mvAI mvAlt
    rfl rfl rfl (Or.inl rfl) rfl rfl
    (fun lm h => Option.noConfusion h)
    rfl rfl rfl rfl (by decide) rfl

/-- C3: a committed move that makes the game terminal finalizes the session:
status becomes Completed with `ended_at` set, `winner_id` resolves to the
mover on a light win, the AI sentinel (-1) on a PvE dark win, the opponent
on a PvP dark win, and null on a draw; exactly one record is appended (no
AI turn follows), and the winner — when it is a stored player — is awarded
one score point. -/
theorem terminal_move_finalizes_session (eng : Engine) (rnd : Nat) (now : Int)
    (db : DB) (gameId : Nat) (fm toPos : APos) (playerId : Int)
    (player0 : Player) (game : Game) (savedBoard : SavedBoard)
    (moveToMake : DMove) (W : Option Int)
    (hp : findPlayer db playerId = some player0)
    (hg : findGame db gameId = some game)
    (hs : game.status = .ONGOING)
    (ha : game.player_id = playerId ∨ game.opponent_id = some playerId)
    (hb : game.board = .stored savedBoard)
    (hf : findMove eng savedBoard fm toPos = some moveToMake)
    (hlm : ∀ lm, lastMoveOf db gameId (some playerId) = some lm →
      timeoutExceeded now lm.createdAt = false ∧
      (lm.from_position == fm && lm.to_position == toPos) = false)
    (hmover : game.player_id = playerId)
    (hterm : terminalCheck (eng.statusOf (eng.applyMove
      (loadDraughts eng savedBoard.flatten) moveToMake)) = true)
    (hW : W = (if eng.statusOf (eng.applyMove
          (loadDraughts eng savedBoard.flatten) moveToMake) = .LIGHT_WON then
        some game.player_id
      else if eng.statusOf (eng.applyMove
          (loadDraughts eng savedBoard.flatten) moveToMake) = .DARK_WON then
        (if game.type = .PVE then some (-1) else game.opponent_id)
      else none)) :
    (∃ msg, (executeMove eng rnd now db gameId fm toPos playerId).1 =
        .gameEnded gameId msg) ∧
    (eng.statusOf (eng.applyMove (loadDraughts eng savedBoard.flatten)
        moveToMake) = .LIGHT_WON → W = some playerId) ∧
    findGame (executeMove eng rnd now db gameId fm toPos playerId).2 gameId =
      some { game with
             board := .stored (.flat (eng.applyMove
               (loadDraughts eng savedBoard.flatten) moveToMake).board),
             total_moves := game.total_moves + 1,
             status := .COMPLETED, ended_at := some now, winner_id := W } ∧
    (executeMove eng rnd now db gameId fm toPos playerId).2.moves.length =
      db.moves.length + 1 ∧
    ∀ w pw, W = some w → findPlayer db w = some pw →
      (findPlayer (executeMove eng rnd now db gameId fm toPos playerId).2 w).map
        Player.score = some (pw.score + 1) := by
  have hg2 : ∀ (g1 : Game) (r : MoveRec),
      findGame (addMove (updateGame (updatePlayer db playerId
        (debitedPlayer player0)) gameId g1) r) gameId = some g1 := by
    intro g1 r
    rw [findGame_addMove]
    exact findGame_updateGame_self _ gameId _ game
      (by rw [findGame_updatePlayer]; exact hg)
  rw [executeMove_eq_commitPhase eng rnd now db gameId fm toPos playerId player0
    game savedBoard moveToMake hp hg hs ha hb hf hlm]
  unfold commitPhase
  dsimp only
  rw [hterm, if_pos rfl]
  dsimp only
  refine ⟨⟨_, rfl⟩, ?_, ?_, ?_, ?_⟩
  · intro hl
    rw [hW, if_pos hl, hmover]
  · exact (handleGameOver_spec eng _ gameId _ _ now _ W (hg2 _ _)
      (by dsimp only; exact hW)).1
  · rw [handleGameOver_moves]
    simp [addMove, updateGame, updatePlayer]
  · intro w pw hWsome hpw
    by_cases hwp : playerId = w
    · subst hwp
      rw [hp] at hpw
      rw [Option.some.injEq] at hpw
      subst hpw
      have hfd : ∀ (g1 : Game) (r : MoveRec),
          findPlayer (addMove (updateGame (updatePlayer db playerId
            (debitedPlayer player0)) gameId g1) r) playerId =
            some (debitedPlayer player0) := by
        intro g1 r
        rw [findPlayer_addMove, findPlayer_updateGame]
        exact findPlayer_updatePlayer_self db playerId _ player0 hp
      rw [(handleGameOver_spec eng _ gameId _ _ now _ W (hg2 _ _)
        (by dsimp only; exact hW)).2
        playerId (debitedPlayer player0) hWsome (hfd _ _)]
      rfl
    · have hfd : ∀ (g1 : Game) (r : MoveRec),
          findPlayer (addMove (updateGame (updatePlayer db playerId
            (debitedPlayer player0)) gameId g1) r) w = some pw := by
        intro g1 r
        rw [findPlayer_addMove, findPlayer_updateGame,
          findPlayer_updatePlayer_ne db playerId _ w hwp]
        exact hpw
      rw [(handleGameOver_spec eng _ gameId _ _ now _ W (hg2 _ _)
        (by dsimp only; exact hW)).2 w pw hWsome (hfd _ _)]
      rfl

/-- Witness for C3: in the PvP fixture with the light-wins engine, the move
A1-B2 by player 1 ends the game, and player 1 (the mover, winner of the
light win) goes from five to six points. -/
theorem terminal_move_finalizes_session_witness :
    (∃ msg, (executeMove engLightWins 0 0 dbPvpFresh 1 pA1 pB2 1).1 =
        .gameEnded 1 msg) ∧
    (findPlayer (executeMove engLightWins 0 0 dbPvpFresh 1 pA1 pB2 1).2 1).map
        Player.score = some (5 + 1) := by
  have h := terminal_move_finalizes_session engLightWins 0 0 dbPvpFresh 1
    pA1 pB2 1 playerRich gamePvp (.flat [sqMan]) mvPlayer (some 1)
    rfl rfl rfl (Or.inl rfl) rfl rfl
    (fun lm hx => Option.noConfusion hx)
    rfl rfl rfl
  exact ⟨h.1, h.2.2.2.2 1 playerRich rfl rfl⟩

theorem countdown_length (n : Nat) : (countdown n).length = n := by
  induction n with
  | zero => rfl
  | succ k ih => simp [countdown, ih]

theorem seqNumbers_length (db : DB) (gid : Nat) :
    (seqNumbers db gid).length = (movesOfGame db gid).length :=
  List.length_map _ _

/-- From the countdown shape of a move-number column, the stored counter
equals the record count. -/
theorem countdown_length_inv (db : DB) (gid : Nat) (n : Nat)
    (h : seqNumbers db gid = countdown n) :
    n = (movesOfGame db gid).length := by
  have h2 := congrArg List.length h
  rw [seqNumbers_length, countdown_length] at h2
  exact h2.symm

theorem seqNumbers_eq_of_moves (db1 db2 : DB) (gid : Nat)
    (h : db1.moves = db2.moves) :
    seqNumbers db1 gid = seqNumbers db2 gid := by
  unfold seqNumbers
  rw [movesOfGame_eq_of_moves db1 db2 gid h]

theorem seqNumbers_addMove_same (db : DB) (m : MoveRec) (gid : Nat)
    (h : m.game_id = gid) :
    seqNumbers (addMove db m) gid = m.move_number :: seqNumbers db gid := by
  unfold seqNumbers
  rw [movesOfGame_addMove_same db m gid h]
  rfl

theorem seqNumbers_updateGame (db : DB) (gid2 : Nat) (g : Game) (gid : Nat) :
    seqNumbers (updateGame db gid2 g) gid = seqNumbers db gid := rfl

theorem seqNumbers_updatePlayer (db : DB) (pid : Int) (p : Player) (gid : Nat) :
    seqNumbers (updatePlayer db pid p) gid = seqNumbers db gid := rfl

/-- An ongoing-status failure leaves the database untouched. -/
theorem executeMove_notOngoing (eng : Engine) (rnd : Nat) (now : Int) (db : DB)
    (gameId : Nat) (fm toPos : APos) (playerId : Int) (player0 : Player)
    (game : Game)
    (hp : findPlayer db playerId = some player0)
    (hg : findGame db gameId = some game)
    (hs : game.status ≠ .ONGOING) :
    executeMove eng rnd now db gameId fm toPos playerId =
      (.thrown (.gameError .GAME_NOT_IN_PROGRESS), db) := by
  simp only [executeMove, hp, hg]
  rw [if_pos hs]

/-- An authorization failure leaves the database untouched. -/
theorem executeMove_unauthorized (eng : Engine) (rnd : Nat) (now : Int)
    (db : DB) (gameId : Nat) (fm toPos : APos) (playerId : Int)
    (player0 : Player) (game : Game)
    (hp : findPlayer db playerId = some player0)
    (hg : findGame db gameId = some game)
    (hs : game.status = .ONGOING)
    (ha : game.player_id ≠ playerId ∧ game.opponent_id ≠ some playerId) :
    executeMove eng rnd now db gameId fm toPos playerId =
      (.thrown (.authError .UNAUTHORIZED), db) := by
  simp only [executeMove, hp, hg]
  rw [if_neg (by simp [hs]), if_pos ha]

/-- Through the committing tail, the move-number column of the session stays
the exact countdown of the stored counter: one record numbered `n+1` is
prepended when the counter goes to `n+1`, and a second numbered `n+2` when
the AI reply commits. -/
theorem commitPhase_preserves_seq (eng : Engine) (rnd : Nat) (now : Int)
    (db : DB) (gameId : Nat) (fm toPos : APos) (playerId : Int)
    (player0 : Player) (game : Game) (savedBoard : SavedBoard)
    (moveToMake : DMove)
    (hg : findGame db gameId = some game)
    (hInv : seqNumbers db gameId = countdown game.total_moves) :
    ∀ g', findGame (commitPhase eng rnd now
        (updatePlayer db playerId (debitedPlayer player0)) gameId fm toPos
        playerId (debitedPlayer player0) game savedBoard moveToMake).2 gameId =
        some g' →
      seqNumbers (commitPhase eng rnd now
        (updatePlayer db playerId (debitedPlayer player0)) gameId fm toPos
        playerId (debitedPlayer player0) game savedBoard moveToMake).2 gameId =
        countdown g'.total_moves := by
  intro g' hg'
  unfold commitPhase at hg' ⊢
  dsimp only at hg' ⊢
  set DBD : DB := updatePlayer db playerId (debitedPlayer player0) with hDBD
  set D1 : DraughtsState :=
    eng.applyMove (loadDraughts eng savedBoard.flatten) moveToMake with hD1
  set G1 : Game := { game with
    board := StoredBoard.stored (SavedBoard.flat D1.board),
    total_moves := game.total_moves + 1 } with hG1
  set R1 : MoveRec :=
    { move_number := game.total_moves + 1, board_after := D1.board,
      from_position := fm, to_position := toPos,
      piece_king := savedBoard.kingAt (convertPosition fm),
      game_id := gameId, user_id := some playerId, createdAt := now } with hR1
  set DB2 : DB := addMove (updateGame DBD gameId G1) R1 with hDB2
  have hgDBD : findGame DBD gameId = some game := by
    rw [hDBD, findGame_updatePlayer]
    exact hg
  have hgDB2 : findGame DB2 gameId = some G1 := by
    rw [hDB2, findGame_addMove]
    exact findGame_updateGame_self DBD gameId G1 game hgDBD
  have hseq2 : seqNumbers DB2 gameId =
      (game.total_moves + 1) :: countdown game.total_moves := by
    rw [hDB2, seqNumbers_addMove_same _ _ _ (by rw [hR1]),
      seqNumbers_updateGame, hDBD, seqNumbers_updatePlayer, hInv, hR1]
  by_cases h1 : terminalCheck (eng.statusOf D1) = true
  · rw [if_pos h1] at hg' ⊢
    have hsp := (handleGameOver_spec eng D1 gameId G1 DB2 now G1 _ hgDB2 rfl).1
    rw [hsp] at hg'
    rw [Option.some.injEq] at hg'
    subst hg'
    rw [seqNumbers_eq_of_moves _ DB2 gameId
      (handleGameOver_moves eng D1 gameId G1 DB2 now), hseq2]
    rfl
  · rw [if_neg h1] at hg' ⊢
    by_cases h2 : game.type = GameType.PVE
    · rw [if_pos h2] at hg' ⊢
      cases haim : aiReply eng rnd DB2 gameId D1 game.ai_difficulty with
      | none =>
        rw [haim] at hg'
        dsimp only at hg' ⊢
        rw [hgDB2] at hg'
        rw [Option.some.injEq] at hg'
        subst hg'
        rw [hseq2]
        rfl
      | some am =>
        rw [haim] at hg'
        dsimp only at hg' ⊢
        set D2 : DraughtsState := eng.applyMove D1 am with hD2
        set G2 : Game := { game with
          board := StoredBoard.stored (SavedBoard.flat D2.board),
          total_moves := game.total_moves + 1 + 1 } with hG2
        set R2 : MoveRec :=
          { move_number := game.total_moves + 1 + 1, board_after := D2.board,
            from_position := convertPositionBack am.origin,
            to_position := convertPositionBack am.destination,
            piece_king := savedBoard.kingAt am.origin,
            game_id := gameId, user_id := none, createdAt := now } with hR2
        have hgDB5 : ∀ (p : Player), findGame (addMove (updatePlayer
            (updateGame DB2 gameId G2) playerId p) R2) gameId = some G2 := by
          intro p
          rw [findGame_addMove, findGame_updatePlayer]
          exact findGame_updateGame_self DB2 gameId G2 G1 hgDB2
        have hseq5 : ∀ (p : Player), seqNumbers (addMove (updatePlayer
            (updateGame DB2 gameId G2) playerId p) R2) gameId =
            (game.total_moves + 1 + 1) :: (game.total_moves + 1) ::
              countdown game.total_moves := by
          intro p
          rw [seqNumbers_addMove_same _ _ _ (by rw [hR2]),
            seqNumbers_updatePlayer, seqNumbers_updateGame, hseq2, hR2]
        by_cases h3 : terminalCheck (eng.statusOf D2) = true
        · rw [if_pos h3] at hg' ⊢
          dsimp only at hg' ⊢
          have hsp := (handleGameOver_spec eng D2 gameId G2
            (addMove (updatePlayer (updateGame DB2 gameId G2) playerId
              { tokens := (debitedPlayer player0).tokens - MOVE_COST,
                score := (debitedPlayer player0).score }) R2) now G2 _
            (hgDB5 _) rfl).1
          rw [hsp] at hg'
          rw [Option.some.injEq] at hg'
          subst hg'
          rw [seqNumbers_eq_of_moves _ _ gameId
            (handleGameOver_moves eng D2 gameId G2 _ now), hseq5 _]
          rfl
        · rw [if_neg h3] at hg' ⊢
          rw [hgDB5 _] at hg'
          rw [Option.some.injEq] at hg'
          subst hg'
          rw [hseq5 _]
          rfl
    · rw [if_neg h2] at hg' ⊢
      rw [hgDB2] at hg'
      rw [Option.some.injEq] at hg'
      subst hg'
      rw [hseq2]
      rfl

/-- C6 (amended): (A) every `executeMove` call preserves the bookkeeping
invariant that the move numbers of the session are exactly
`total_moves, ..., 2, 1` (newest first) — so `totalMoves` always equals the
number of records, grows by exactly one per committed record, and no
sequence number is ever reused; (B) a failed (thrown) submission leaves
both the history and the session row unchanged, so failed-then-retried
submissions consume no sequence numbers; (C) a committed non-terminal PvE
round appends exactly two records when the AI replies and exactly one when
the AI reply is null (absent difficulty, or no legal alternative to the
repeated previous AI move — the counterexample to the original claim). -/
theorem totalMoves_seq_invariant (eng : Engine) (rnd : Nat) (now : Int)
    (db : DB) (gameId : Nat) (fm toPos : APos) (playerId : Int) :
    (∀ g, findGame db gameId = some g →
      seqNumbers db gameId = countdown g.total_moves →
      ∀ g', findGame (executeMove eng rnd now db gameId fm toPos playerId).2
          gameId = some g' →
        seqNumbers (executeMove eng rnd now db gameId fm toPos playerId).2
            gameId = countdown g'.total_moves ∧
        g'.total_moves = (movesOfGame
          (executeMove eng rnd now db gameId fm toPos playerId).2 gameId).length) ∧
    (∀ t, (executeMove eng rnd now db gameId fm toPos playerId).1 = .thrown t →
      (executeMove eng rnd now db gameId fm toPos playerId).2.moves = db.moves ∧
      findGame (executeMove eng rnd now db gameId fm toPos playerId).2 gameId =
        findGame db gameId) ∧
    (∀ player0 game savedBoard moveToMake,
      findPlayer db playerId = some player0 →
      findGame db gameId = some game →
      game.status = .ONGOING →
      (game.player_id = playerId ∨ game.opponent_id = some playerId) →
      game.board = .stored savedBoard →
      findMove eng savedBoard fm toPos = some moveToMake →
      (∀ lm, lastMoveOf db gameId (some playerId) = some lm →
        timeoutExceeded now lm.createdAt = false ∧
        (lm.from_position == fm && lm.to_position == toPos) = false) →
      terminalCheck (eng.statusOf (eng.applyMove
        (loadDraughts eng savedBoard.flatten) moveToMake)) = false →
      game.type = .PVE →
      (∀ am, aiReply eng rnd db gameId (eng.applyMove
          (loadDraughts eng savedBoard.flatten) moveToMake)
          game.ai_difficulty = some am →
        (executeMove eng rnd now db gameId fm toPos playerId).2.moves.length =
          db.moves.length + 2) ∧
      (aiReply eng rnd db gameId (eng.applyMove
          (loadDraughts eng savedBoard.flatten) moveToMake)
          game.ai_difficulty = none →
        (executeMove eng rnd now db gameId fm toPos playerId).2.moves.length =
          db.moves.length + 1)) := by
  refine ⟨?_, ?_, ?_⟩
  · -- (A)
    intro g hgf hInv g' hg'
    cases hp : findPlayer db playerId with
    | none =>
      rw [executeMove_noPlayer eng rnd now db gameId fm toPos playerId hp]
        at hg' ⊢
      dsimp only at hg' ⊢
      rw [hgf] at hg'
      rw [Option.some.injEq] at hg'
      subst hg'
      exact ⟨hInv, countdown_length_inv db gameId _ hInv⟩
    | some player0 =>
      cases hgc : findGame db gameId with
      | none =>
        rw [hgf] at hgc
        exact Option.noConfusion hgc
      | some game =>
        have hge : g = game := by
          rw [hgc] at hgf
          rw [Option.some.injEq] at hgf
          exact hgf.symm
        rw [hge] at hInv
        by_cases hs : game.status = GameStatus.ONGOING
        · by_cases ha2 : game.player_id ≠ playerId ∧
              game.opponent_id ≠ some playerId
          · rw [executeMove_unauthorized eng rnd now db gameId fm toPos playerId
              player0 game hp hgc hs ha2] at hg' ⊢
            dsimp only at hg' ⊢
            rw [hgc] at hg'
            rw [Option.some.injEq] at hg'
            subst hg'
            exact ⟨hInv, countdown_length_inv db gameId _ hInv⟩
          · have ha : game.player_id = playerId ∨
                game.opponent_id = some playerId := by
              rcases not_and_or.mp ha2 with h | h
              · exact Or.inl (not_not.mp h)
              · exact Or.inr (not_not.mp h)
            rw [executeMove_afterGuards eng rnd now db gameId fm toPos playerId
              player0 game hp hgc hs ha] at hg' ⊢
            dsimp only at hg' ⊢
            cases hbd : game.board with
            | unparseable =>
              rw [hbd] at hg'
              dsimp only at hg' ⊢
              rw [findGame_updatePlayer, hgc] at hg'
              rw [Option.some.injEq] at hg'
              subst hg'
              exact ⟨hInv, countdown_length_inv db gameId _ hInv⟩
            | notArray =>
              rw [hbd] at hg'
              dsimp only at hg' ⊢
              rw [findGame_updatePlayer, hgc] at hg'
              rw [Option.some.injEq] at hg'
              subst hg'
              exact ⟨hInv, countdown_length_inv db gameId _ hInv⟩
            | stored savedBoard =>
              rw [hbd] at hg'
              dsimp only at hg' ⊢
              cases hfm : findMove eng savedBoard fm toPos with
              | none =>
                rw [hfm] at hg'
                dsimp only at hg' ⊢
                rw [findGame_updatePlayer, hgc] at hg'
                rw [Option.some.injEq] at hg'
                subst hg'
                exact ⟨hInv, countdown_length_inv db gameId _ hInv⟩
              | some moveToMake =>
                rw [hfm] at hg'
                dsimp only at hg' ⊢
                rw [lastMoveOf_updatePlayer] at hg' ⊢
                cases hlmc : lastMoveOf db gameId (some playerId) with
                | none =>
                  rw [hlmc] at hg'
                  dsimp only at hg' ⊢
                  have hseq := commitPhase_preserves_seq eng rnd now db gameId
                    fm toPos playerId player0 game savedBoard moveToMake hgc
                    hInv g' hg'
                  exact ⟨hseq, countdown_length_inv _ gameId _ hseq⟩
                | some lm =>
                  rw [hlmc] at hg'
                  dsimp only at hg' ⊢
                  by_cases hto : timeoutExceeded now lm.createdAt = true
                  · rw [if_pos hto] at hg' ⊢
                    unfold timeoutPhase at hg' ⊢
                    dsimp only at hg' ⊢
                    have hre : ∀ (g1 : Game), findPlayer (updateGame
                        (updatePlayer db playerId (debitedPlayer player0))
                        gameId g1) playerId = some (debitedPlayer player0) := by
                      intro g1
                      rw [findPlayer_updateGame]
                      exact findPlayer_updatePlayer_self db playerId _ player0 hp
                    rw [hre _] at hg' ⊢
                    dsimp only at hg' ⊢
                    have hftg : ∀ (g1 : Game), findGame (updateGame
                        (updatePlayer db playerId (debitedPlayer player0))
                        gameId g1) gameId = some g1 := by
                      intro g1
                      exact findGame_updateGame_self _ gameId g1 game
                        (by rw [findGame_updatePlayer]; exact hgc)
                    rw [findGame_updatePlayer, hftg _] at hg'
                    rw [Option.some.injEq] at hg'
                    subst hg'
                    exact ⟨hInv, countdown_length_inv db gameId _ hInv⟩
                  · rw [if_neg hto] at hg' ⊢
                    by_cases hdup : (lm.from_position == fm &&
                        lm.to_position == toPos) = true
                    · rw [if_pos hdup] at hg' ⊢
                      dsimp only at hg' ⊢
                      rw [findGame_updatePlayer, hgc] at hg'
                      rw [Option.some.injEq] at hg'
                      subst hg'
                      exact ⟨hInv, countdown_length_inv db gameId _ hInv⟩
                    · rw [if_neg hdup] at hg' ⊢
                      have hseq := commitPhase_preserves_seq eng rnd now db
                        gameId fm toPos playerId player0 game savedBoard
                        moveToMake hgc hInv g' hg'
                      exact ⟨hseq, countdown_length_inv _ gameId _ hseq⟩
        · rw [executeMove_notOngoing eng rnd now db gameId fm toPos playerId
            player0 game hp hgc hs] at hg' ⊢
          dsimp only at hg' ⊢
          rw [hgc] at hg'
          rw [Option.some.injEq] at hg'
          subst hg'
          exact ⟨hInv, countdown_length_inv db gameId _ hInv⟩
  · -- (B)
    intro t ht
    cases hp : findPlayer db playerId with
    | none =>
      rw [executeMove_noPlayer eng rnd now db gameId fm toPos playerId hp]
      exact ⟨rfl, rfl⟩
    | some player0 =>
      cases hgc : findGame db gameId with
      | none =>
        rw [executeMove_noGame eng rnd now db gameId fm toPos playerId player0
          hp hgc]
        exact ⟨rfl, hgc⟩
      | some game =>
        by_cases hs : game.status = GameStatus.ONGOING
        · by_cases ha2 : game.player_id ≠ playerId ∧
              game.opponent_id ≠ some playerId
          · rw [executeMove_unauthorized eng rnd now db gameId fm toPos playerId
              player0 game hp hgc hs ha2]
            exact ⟨rfl, hgc⟩
          · have ha : game.player_id = playerId ∨
                game.opponent_id = some playerId := by
              rcases not_and_or.mp ha2 with h | h
              · exact Or.inl (not_not.mp h)
              · exact Or.inr (not_not.mp h)
            have key := executeMove_thrown_db eng rnd now db gameId fm toPos
              playerId player0 game t hp hgc hs ha ht
            rw [key]
            exact ⟨rfl, by rw [findGame_updatePlayer]; exact hgc⟩
        · rw [executeMove_notOngoing eng rnd now db gameId fm toPos playerId
            player0 game hp hgc hs]
          exact ⟨rfl, hgc⟩
  · -- (C)
    intro player0 game savedBoard moveToMake hp hgc hs ha hb hf hlm hterm1 htype
    rw [executeMove_eq_commitPhase eng rnd now db gameId fm toPos playerId
      player0 game savedBoard moveToMake hp hgc hs ha hb hf hlm]
    unfold commitPhase
    dsimp only
    rw [hterm1, if_neg Bool.false_ne_true, htype, if_pos rfl]
    constructor
    · intro am haim
      rw [aiReply_addMove_player eng rnd _ _ gameId _ _ playerId rfl,
        aiReply_updateGame, aiReply_updatePlayer, haim]
      dsimp only
      split
      · rw [handleGameOver_moves]
        simp [addMove, updateGame, updatePlayer]
      · simp [addMove, updateGame, updatePlayer]
    · intro haim
      rw [aiReply_addMove_player eng rnd _ _ gameId _ _ playerId rfl,
        aiReply_updateGame, aiReply_updatePlayer, haim]
      dsimp only
      simp [addMove, updateGame, updatePlayer]

/-- Witness for C6 (amended): one full PvE round in the fresh fixture takes
the session from zero records to the countdown `[2, 1]` with the counter at
two. -/
theorem totalMoves_seq_invariant_witness :
    seqNumbers (executeMove engPlay 0 0 dbPveFresh 1 pA1 pB2 1).2 1 =
      countdown 2 ∧
    (movesOfGame (executeMove engPlay 0 0 dbPveFresh 1 pA1 pB2 1).2 1).length =
      2 := by
  obtain ⟨h1, h2⟩ := (totalMoves_seq_invariant engPlay 0 0 dbPveFresh 1
      pA1 pB2 1).1
    { gamePve with total_moves := 0 } rfl (by decide)
    { gamePve with
      board := StoredBoard.stored (SavedBoard.flat [sqMan, sqEmpty, sqEmpty]),
      total_moves := 2 } (by decide)
  exact ⟨h1, h2.symm⟩

/-- Counterexample for C6 as stated: a PvE round in which the only legal
reply equals the AI's own previous move produces exactly one record while
the game stays Ongoing — not the two records the claim requires of every
round that does not end the game. -/
theorem pve_round_with_single_record :
    (findGame dbPveSub 1).map Game.type = some .PVE ∧
    (executeMove engOneReply 0 0 dbPveSub 1 pA1 pB2 1).1 =
      .moveExecuted 1 false ∧
    (executeMove engOneReply 0 0 dbPveSub 1 pA1 pB2 1).2.moves.length =
      dbPveSub.moves.length + 1 ∧
    (findGame (executeMove engOneReply 0 0 dbPveSub 1 pA1 pB2 1).2 1).map
      Game.status = some .ONGOING := by
  exact ⟨rfl, rfl, rfl, rfl⟩

end DraughtsApp
